/-
  Verification of the One ROM address/data mangler, validator, metadata
  parser and firmware-override machinery, as a shallow embedding of the
  C sources (test/src/query-roms.c, the ROM-set validator, main.c and
  rp235x.c).  Machine integers are modelled as Nat with explicit
  `% 2 ^ w` where C truncates; fixed-size C arrays are modelled as
  functions `Nat → Nat` read only at in-bound indices, exactly as the
  C loops do.
-/
import Mathlib

namespace OneRom

/-! ## Constants

`MAX_ADDR_LINES` and `NUM_DATA_LINES` come from the test harness
headers (roms-test.h, not part of the sources here); 16 address lines
cover every ROM type the mangler supports (logical addresses are
`uint16_t`), and `NUM_DATA_LINES` is defined as 8 in the PIO sources.
`MAX_IMG_SEL_PINS` is 7 (SEL0..SEL6); `MAX_USED_GPIOS` bounds usable
GPIO indices.  No claim depends on the exact values of the last two. -/

def MAX_ADDR_LINES : Nat := 16

def NUM_DATA_LINES : Nat := 8

def MAX_IMG_SEL_PINS : Nat := 7

def MAX_USED_GPIOS : Nat := 30

/-- ROM (chip) types, from `sdrr_rom_type_t` in sdrr/include/enums.h
(restricted to the types the test mangler's switch mentions). -/
inductive SdrrRomType where
  | t2316
  | t2332
  | t2364
  | t23128
  | t23256
  | t23512
  | t2704
  | t2708
  | t2716
  | t2732
  | t2764
  | t27128
  | t27256
  | t27512
  | t231024
  deriving DecidableEq, Repr

/-- CS state from `sdrr_cs_state_t` in enums.h. -/
inductive SdrrCsState where
  | activeLow
  | activeHigh
  | notUsed
  deriving DecidableEq, Repr

/-- Per-ROM-type pin variants for a CS line (json-config `cs1`/`cs2`/`cs3`). -/
structure CsPins where
  pin_2316 : Nat
  pin_2332 : Nat
  pin_2364 : Nat
  pin_23128 : Nat
  pin_23256 : Nat
  pin_23512 : Nat

/-- Per-ROM-type pin variants for the CE/OE lines (27-series). -/
structure CePins where
  pin_2716 : Nat
  pin_2732 : Nat
  pin_2764 : Nat
  pin_27128 : Nat
  pin_27256 : Nat
  pin_27512 : Nat

/-- `config->mcu.pins` of the test json config.  `addr` and `data` are
the fixed-size pin arrays, modelled as functions read at indices
below `MAX_ADDR_LINES` / `NUM_DATA_LINES` only. -/
structure McuPins where
  addr : Nat → Nat
  data : Nat → Nat
  cs1 : CsPins
  cs2 : CsPins
  cs3 : CsPins
  ce : CePins
  oe : CePins
  x1 : Nat
  x2 : Nat
  x_jumper_pull : Nat

/-- `config->mcu.ports`. -/
structure McuPorts where
  data_port : Nat
  addr_port : Nat

/-- The parts of `json_config_t` the mangler reads. -/
structure JsonConfig where
  pins : McuPins
  ports : McuPorts
  family : String
  pin_count : Nat

/-- `address_mangler_t` from test/src/query-roms.c (255 marks an
unused pin, as in the C `memset`). -/
structure AddressMangler where
  addr_pins : Nat → Nat
  cs1_pin : Nat
  cs2_pin : Nat
  cs3_pin : Nat
  x1_pin : Nat
  x2_pin : Nat

/-- 8-bit subtraction `p - q` on `uint8_t` values (wraps modulo 256). -/
def usub8 (p q : Nat) : Nat := (p + 256 - q % 256) % 256

/-- `init_address_mangler` from test/src/query-roms.c: select the CS
pins for the ROM type (`exit(1)` on an unsupported type becomes
`none`), copy the configured address pins, swap A11/A12 for the 2732,
and record the X pins. -/
def init_address_mangler (config : JsonConfig) (rom_type : SdrrRomType) :
    Option AddressMangler :=
  let cs : Option (Nat × Nat × Nat) :=
    match rom_type with
    | .t2316 => some (config.pins.cs1.pin_2316, config.pins.cs2.pin_2316,
        config.pins.cs3.pin_2316)
    | .t2332 => some (config.pins.cs1.pin_2332, config.pins.cs2.pin_2332,
        config.pins.cs3.pin_2332)
    | .t2364 => some (config.pins.cs1.pin_2364, config.pins.cs2.pin_2364,
        config.pins.cs3.pin_2364)
    | .t23128 => some (config.pins.cs1.pin_23128, config.pins.cs2.pin_23128,
        config.pins.cs3.pin_23128)
    | .t23256 => some (config.pins.cs1.pin_23256, config.pins.cs2.pin_23256,
        config.pins.cs3.pin_23256)
    | .t23512 => some (config.pins.cs1.pin_23512, config.pins.cs2.pin_23512,
        config.pins.cs3.pin_23512)
    | .t2716 => some (config.pins.ce.pin_2716, config.pins.oe.pin_2716, 255)
    | .t2732 => some (config.pins.ce.pin_2732, config.pins.oe.pin_2732, 255)
    | .t2764 => some (config.pins.ce.pin_2764, config.pins.oe.pin_2764, 255)
    | .t27128 => some (config.pins.ce.pin_27128, config.pins.oe.pin_27128, 255)
    | .t27256 => some (config.pins.ce.pin_27256, config.pins.oe.pin_27256, 255)
    | .t27512 => some (config.pins.ce.pin_27512, config.pins.oe.pin_27512, 255)
    | _ => none
  match cs with
  | none => none
  | some (c1, c2, c3) =>
    let pins0 := config.pins.addr
    let pins :=
      if rom_type = .t2732 then
        fun i => if i = 11 then pins0 12 else if i = 12 then pins0 11 else pins0 i
      else pins0
    some { addr_pins := pins, cs1_pin := c1, cs2_pin := c2, cs3_pin := c3,
           x1_pin := config.pins.x1, x2_pin := config.pins.x2 }

/-- Minimum configured address pin: the C loop starts from 255 and
takes every strictly smaller entry (unused 255 entries never win). -/
def min_addr_pin (pins : Nat → Nat) : Nat :=
  (List.range MAX_ADDR_LINES).foldl (fun mn i => if pins i < mn then pins i else mn) 255

/-- The 24-pin remap loop of `create_address_mangler`: shift every
used (≠ 255) address/CS/X pin down by 8 (`uint8_t` subtraction). -/
def shift_pins_24 (m : AddressMangler) : AddressMangler :=
  { addr_pins := fun i => if m.addr_pins i ≠ 255 then usub8 (m.addr_pins i) 8
      else m.addr_pins i,
    cs1_pin := if m.cs1_pin ≠ 255 then usub8 m.cs1_pin 8 else m.cs1_pin,
    cs2_pin := if m.cs2_pin ≠ 255 then usub8 m.cs2_pin 8 else m.cs2_pin,
    cs3_pin := if m.cs3_pin ≠ 255 then usub8 m.cs3_pin 8 else m.cs3_pin,
    x1_pin := if m.x1_pin ≠ 255 then usub8 m.x1_pin 8 else m.x1_pin,
    x2_pin := if m.x2_pin ≠ 255 then usub8 m.x2_pin 8 else m.x2_pin }

/-- The 28-pin remap loop of `create_address_mangler`: subtract the
minimum address pin from every used address pin (CS/X untouched). -/
def pack_pins_28 (m : AddressMangler) : AddressMangler :=
  { m with addr_pins := fun i =>
      if m.addr_pins i ≠ 255 then usub8 (m.addr_pins i) (min_addr_pin m.addr_pins)
      else m.addr_pins i }

/-- `create_address_mangler` from test/src/query-roms.c: initialize,
then for 24-pin configs shift all used address/CS/X pins down by 8
when data and address share a port with data in the low byte; for
other (28-pin) configs subtract the minimum address pin from every
used address pin. -/
def create_address_mangler (config : JsonConfig) (rom_type : SdrrRomType) :
    Option AddressMangler :=
  (init_address_mangler config rom_type).map (fun m =>
    if config.pin_count = 24 then
      if config.ports.data_port = config.ports.addr_port ∧ config.pins.data 0 < 8 then
        shift_pins_24 m
      else m
    else pack_pins_28 m)

/-- `create_mangled_address` from test/src/query-roms.c.  For 24-pin
ROMs the CS and X selection bits are OR-ed in first; then every set
bit of the logical address contributes the bit at its configured pin.
The result is a `uint16_t`, hence the final `% 2 ^ 16`. -/
def create_mangled_address (rom_pins : Nat) (m : AddressMangler)
    (logical_addr cs1 cs2 cs3 x1 x2 : Nat) : Nat :=
  let mangled0 : Nat :=
    if rom_pins = 24 then
      (if cs1 = 1 then 1 <<< m.cs1_pin else 0) |||
      (if cs2 = 1 then 1 <<< m.cs2_pin else 0) |||
      (if cs3 = 1 then 1 <<< m.cs3_pin else 0) |||
      (if x1 = 1 then 1 <<< m.x1_pin else 0) |||
      (if x2 = 1 then 1 <<< m.x2_pin else 0)
    else 0
  let mangled := (List.range MAX_ADDR_LINES).foldl
    (fun acc i => if logical_addr.testBit i then acc ||| (1 <<< m.addr_pins i) else acc)
    mangled0
  mangled % 2 ^ 16

/-- `create_byte_demangler` from test/src/query-roms.c: the data pin
map, reduced modulo 8 on the rp2350 family. -/
def create_byte_demangler (config : JsonConfig) : Nat → Nat :=
  if config.family = "rp2350" then fun i => config.pins.data i % 8
  else config.pins.data

/-- `demangle_byte` from test/src/query-roms.c. -/
def demangle_byte (data_pins : Nat → Nat) (mangled_byte : Nat) : Nat :=
  (List.range NUM_DATA_LINES).foldl
    (fun acc i => if mangled_byte.testBit (data_pins i) then acc ||| (1 <<< i) else acc)
    0

/-! ## Bit-level helper lemmas -/

theorem testBit_one_shiftLeft (p j : Nat) : (1 <<< p).testBit j = decide (p = j) := by
  rw [Nat.one_shiftLeft]
  exact Nat.testBit_two_pow

theorem testBit_ite_shift (c : Prop) [Decidable c] (p j : Nat) :
    ((if c then 1 <<< p else (0 : Nat)).testBit j = true) ↔ (c ∧ p = j) := by
  by_cases hc : c
  · rw [if_pos hc, testBit_one_shiftLeft]
    simp [hc]
  · rw [if_neg hc]
    simp [hc]

/-- Bit `j` of an OR-accumulating fold over `List.range n`: set exactly
when already set in the accumulator or contributed by some index. -/
theorem testBit_range_foldl_or (P : Nat → Bool) (f : Nat → Nat) (acc : Nat) (n j : Nat) :
    (((List.range n).foldl (fun a i => if P i then a ||| (1 <<< f i) else a) acc).testBit j
        = true)
    ↔ (acc.testBit j = true ∨ ∃ i, i < n ∧ P i = true ∧ f i = j) := by
  induction n with
  | zero => simp
  | succ n ih =>
    rw [List.range_succ, List.foldl_append]
    simp only [List.foldl_cons, List.foldl_nil]
    by_cases hP : P n = true
    · rw [if_pos hP]
      simp only [Nat.testBit_or, Bool.or_eq_true, ih, testBit_one_shiftLeft,
        decide_eq_true_eq]
      constructor
      · rintro ((h | ⟨i, hi, h1, h2⟩) | h)
        · exact Or.inl h
        · exact Or.inr ⟨i, Nat.lt_succ_of_lt hi, h1, h2⟩
        · exact Or.inr ⟨n, Nat.lt_succ_self n, hP, h⟩
      · rintro (h | ⟨i, hi, h1, h2⟩)
        · exact Or.inl (Or.inl h)
        · rcases Nat.lt_succ_iff_lt_or_eq.mp hi with h' | rfl
          · exact Or.inl (Or.inr ⟨i, h', h1, h2⟩)
          · exact Or.inr h2
    · rw [if_neg hP, ih]
      constructor
      · rintro (h | ⟨i, hi, h1, h2⟩)
        · exact Or.inl h
        · exact Or.inr ⟨i, Nat.lt_succ_of_lt hi, h1, h2⟩
      · rintro (h | ⟨i, hi, h1, h2⟩)
        · exact Or.inl h
        · rcases Nat.lt_succ_iff_lt_or_eq.mp hi with h' | rfl
          · exact Or.inr ⟨i, h', h1, h2⟩
          · exact absurd h1 hP

/-- Characterization of every bit below 16 of a 24-pin mangled address. -/
theorem create_mangled_address_testBit (m : AddressMangler)
    (a c1 c2 c3 x1 x2 j : Nat) (hj : j < 16) :
    ((create_mangled_address 24 m a c1 c2 c3 x1 x2).testBit j = true)
    ↔ ((c1 = 1 ∧ m.cs1_pin = j) ∨ (c2 = 1 ∧ m.cs2_pin = j) ∨ (c3 = 1 ∧ m.cs3_pin = j)
        ∨ (x1 = 1 ∧ m.x1_pin = j) ∨ (x2 = 1 ∧ m.x2_pin = j)
        ∨ ∃ i, i < MAX_ADDR_LINES ∧ a.testBit i = true ∧ m.addr_pins i = j) := by
  have hd : decide (j < 16) = true := decide_eq_true hj
  simp only [create_mangled_address, if_true]
  rw [Nat.testBit_mod_two_pow, hd, Bool.true_and, testBit_range_foldl_or]
  have h1 := testBit_ite_shift (c1 = 1) m.cs1_pin j
  have h2 := testBit_ite_shift (c2 = 1) m.cs2_pin j
  have h3 := testBit_ite_shift (c3 = 1) m.cs3_pin j
  have h4 := testBit_ite_shift (x1 = 1) m.x1_pin j
  have h5 := testBit_ite_shift (x2 = 1) m.x2_pin j
  simp only [Nat.testBit_or, Bool.or_eq_true, h1, h2, h3, h4, h5, or_assoc]

/-- A well-formed pin assignment: among the pins that land inside the
16-bit GPIO port (≤ 15), no two logical lines share a GPIO.  Unused
lines (pin 255) are unconstrained.  Every real board configuration
satisfies this, since each logical line is wired to its own GPIO. -/
structure PinsDistinct (m : AddressMangler) : Prop where
  addr_addr : ∀ i, i < MAX_ADDR_LINES → ∀ j, j < MAX_ADDR_LINES → i ≠ j →
      m.addr_pins i ≤ 15 → m.addr_pins j ≤ 15 → m.addr_pins i ≠ m.addr_pins j
  addr_cs1 : ∀ i, i < MAX_ADDR_LINES → m.addr_pins i ≤ 15 → m.addr_pins i ≠ m.cs1_pin
  addr_cs2 : ∀ i, i < MAX_ADDR_LINES → m.addr_pins i ≤ 15 → m.addr_pins i ≠ m.cs2_pin
  addr_cs3 : ∀ i, i < MAX_ADDR_LINES → m.addr_pins i ≤ 15 → m.addr_pins i ≠ m.cs3_pin
  addr_x1 : ∀ i, i < MAX_ADDR_LINES → m.addr_pins i ≤ 15 → m.addr_pins i ≠ m.x1_pin
  addr_x2 : ∀ i, i < MAX_ADDR_LINES → m.addr_pins i ≤ 15 → m.addr_pins i ≠ m.x2_pin
  cs1_cs2 : m.cs2_pin ≤ 15 → m.cs1_pin ≠ m.cs2_pin
  cs1_cs3 : m.cs3_pin ≤ 15 → m.cs1_pin ≠ m.cs3_pin
  cs1_x1 : m.cs1_pin ≠ m.x1_pin
  cs1_x2 : m.cs1_pin ≠ m.x2_pin
  cs2_cs3 : m.cs2_pin ≤ 15 → m.cs3_pin ≤ 15 → m.cs2_pin ≠ m.cs3_pin
  cs2_x1 : m.cs2_pin ≤ 15 → m.cs2_pin ≠ m.x1_pin
  cs2_x2 : m.cs2_pin ≤ 15 → m.cs2_pin ≠ m.x2_pin
  cs3_x1 : m.cs3_pin ≤ 15 → m.cs3_pin ≠ m.x1_pin
  cs3_x2 : m.cs3_pin ≤ 15 → m.cs3_pin ≠ m.x2_pin
  x1_x2 : m.x1_pin ≠ m.x2_pin

/-- Build `PinsDistinct` from decidable disjunctive checks (the
guarded-implication fields themselves are not found decidable by
instance search). -/
theorem pinsDistinct_of (m : AddressMangler)
    (haa : ∀ i, i < MAX_ADDR_LINES → ∀ j, j < MAX_ADDR_LINES →
      (i = j ∨ ¬(m.addr_pins i ≤ 15) ∨ ¬(m.addr_pins j ≤ 15)
        ∨ m.addr_pins i ≠ m.addr_pins j))
    (hao : ∀ i, i < MAX_ADDR_LINES → (¬(m.addr_pins i ≤ 15)
        ∨ (m.addr_pins i ≠ m.cs1_pin ∧ m.addr_pins i ≠ m.cs2_pin
            ∧ m.addr_pins i ≠ m.cs3_pin ∧ m.addr_pins i ≠ m.x1_pin
            ∧ m.addr_pins i ≠ m.x2_pin)))
    (hco : (¬(m.cs2_pin ≤ 15) ∨ (m.cs1_pin ≠ m.cs2_pin
          ∧ (¬(m.cs3_pin ≤ 15) ∨ m.cs2_pin ≠ m.cs3_pin)
          ∧ m.cs2_pin ≠ m.x1_pin ∧ m.cs2_pin ≠ m.x2_pin))
        ∧ (¬(m.cs3_pin ≤ 15) ∨ (m.cs1_pin ≠ m.cs3_pin
          ∧ m.cs3_pin ≠ m.x1_pin ∧ m.cs3_pin ≠ m.x2_pin))
        ∧ m.cs1_pin ≠ m.x1_pin ∧ m.cs1_pin ≠ m.x2_pin ∧ m.x1_pin ≠ m.x2_pin) :
    PinsDistinct m := by
  obtain ⟨hc2, hc3, h11, h12, hxx⟩ := hco
  constructor
  · intro i hi j hj hij h1 h2
    rcases haa i hi j hj with h | h | h | h
    exacts [absurd h hij, absurd h1 h, absurd h2 h, h]
  · intro i hi h1
    rcases hao i hi with h | h
    exacts [absurd h1 h, h.1]
  · intro i hi h1
    rcases hao i hi with h | h
    exacts [absurd h1 h, h.2.1]
  · intro i hi h1
    rcases hao i hi with h | h
    exacts [absurd h1 h, h.2.2.1]
  · intro i hi h1
    rcases hao i hi with h | h
    exacts [absurd h1 h, h.2.2.2.1]
  · intro i hi h1
    rcases hao i hi with h | h
    exacts [absurd h1 h, h.2.2.2.2]
  · intro h15
    rcases hc2 with h | h
    exacts [absurd h15 h, h.1]
  · intro h15
    rcases hc3 with h | h
    exacts [absurd h15 h, h.1]
  · exact h11
  · exact h12
  · intro h2 h3
    rcases hc2 with h | h
    · exact absurd h2 h
    · rcases h.2.1 with h' | h'
      exacts [absurd h3 h', h']
  · intro h2
    rcases hc2 with h | h
    exacts [absurd h2 h, h.2.2.1]
  · intro h2
    rcases hc2 with h | h
    exacts [absurd h2 h, h.2.2.2]
  · intro h3
    rcases hc3 with h | h
    exacts [absurd h3 h, h.2.1]
  · intro h3
    rcases hc3 with h | h
    exacts [absurd h3 h, h.2.2]
  · exact hxx

/-- C1: For every 24-pin chip configuration, every logical address
`a`, CS inputs `(c1,c2,c3)` and bank pins `(x1,x2)`, the index
returned by `create_mangled_address` has bit `A[i]` set exactly when
bit `i` of `a` is set, bit `CSk` set exactly when `ck = 1` for each
configured CS line, and the `X1`/`X2` bits set exactly when
`x1`/`x2 = 1`; moreover every address/CS/X pin index is shifted down
by 8 (as a `uint8_t` subtraction) before use exactly when the data
and address pins share the same GPIO port and the data pins occupy
the low byte (data pin 0 below 8). -/
theorem c1_24pin_mangled_index
    (config : JsonConfig) (rom_type : SdrrRomType) (m0 m : AddressMangler)
    (hinit : init_address_mangler config rom_type = some m0)
    (hcreate : create_address_mangler config rom_type = some m)
    (h24 : config.pin_count = 24)
    (hcs1 : m.cs1_pin ≤ 15) (hx1 : m.x1_pin ≤ 15) (hx2 : m.x2_pin ≤ 15)
    (hdist : PinsDistinct m)
    (a c1v c2v c3v x1v x2v : Nat) :
    (∀ i, i < MAX_ADDR_LINES → m.addr_pins i ≤ 15 →
      (create_mangled_address 24 m a c1v c2v c3v x1v x2v).testBit (m.addr_pins i)
        = a.testBit i)
    ∧ (create_mangled_address 24 m a c1v c2v c3v x1v x2v).testBit m.cs1_pin
        = decide (c1v = 1)
    ∧ (m.cs2_pin ≤ 15 →
        (create_mangled_address 24 m a c1v c2v c3v x1v x2v).testBit m.cs2_pin
          = decide (c2v = 1))
    ∧ (m.cs3_pin ≤ 15 →
        (create_mangled_address 24 m a c1v c2v c3v x1v x2v).testBit m.cs3_pin
          = decide (c3v = 1))
    ∧ (create_mangled_address 24 m a c1v c2v c3v x1v x2v).testBit m.x1_pin
        = decide (x1v = 1)
    ∧ (create_mangled_address 24 m a c1v c2v c3v x1v x2v).testBit m.x2_pin
        = decide (x2v = 1)
    ∧ ((config.ports.data_port = config.ports.addr_port ∧ config.pins.data 0 < 8) →
        (∀ i, m0.addr_pins i ≠ 255 → m.addr_pins i = usub8 (m0.addr_pins i) 8)
        ∧ (m0.cs1_pin ≠ 255 → m.cs1_pin = usub8 m0.cs1_pin 8)
        ∧ (m0.cs2_pin ≠ 255 → m.cs2_pin = usub8 m0.cs2_pin 8)
        ∧ (m0.cs3_pin ≠ 255 → m.cs3_pin = usub8 m0.cs3_pin 8)
        ∧ (m0.x1_pin ≠ 255 → m.x1_pin = usub8 m0.x1_pin 8)
        ∧ (m0.x2_pin ≠ 255 → m.x2_pin = usub8 m0.x2_pin 8))
    ∧ (¬(config.ports.data_port = config.ports.addr_port ∧ config.pins.data 0 < 8) →
        (∀ i, m.addr_pins i = m0.addr_pins i)
        ∧ m.cs1_pin = m0.cs1_pin ∧ m.cs2_pin = m0.cs2_pin ∧ m.cs3_pin = m0.cs3_pin
        ∧ m.x1_pin = m0.x1_pin ∧ m.x2_pin = m0.x2_pin) := by
  have hm : (if config.ports.data_port = config.ports.addr_port ∧
      config.pins.data 0 < 8 then shift_pins_24 m0 else m0) = m := by
    rw [create_address_mangler, hinit] at hcreate
    rw [h24] at hcreate
    simpa using hcreate
  refine ⟨?_, ?_, ?_, ?_, ?_, ?_, ?_, ?_⟩
  · -- address bits
    intro i hi hle
    have hj : m.addr_pins i < 16 := Nat.lt_succ_of_le hle
    cases hab : a.testBit i with
    | true =>
      exact (create_mangled_address_testBit m a c1v c2v c3v x1v x2v _ hj).mpr
        (Or.inr (Or.inr (Or.inr (Or.inr (Or.inr ⟨i, hi, hab, rfl⟩)))))
    | false =>
      apply Bool.eq_false_iff.mpr
      intro h
      rcases (create_mangled_address_testBit m a c1v c2v c3v x1v x2v _ hj).mp h with
        ⟨_, he⟩ | ⟨_, he⟩ | ⟨_, he⟩ | ⟨_, he⟩ | ⟨_, he⟩ | ⟨i', hi', ha', he'⟩
      · exact hdist.addr_cs1 i hi hle he.symm
      · exact hdist.addr_cs2 i hi hle he.symm
      · exact hdist.addr_cs3 i hi hle he.symm
      · exact hdist.addr_x1 i hi hle he.symm
      · exact hdist.addr_x2 i hi hle he.symm
      · by_cases hii : i' = i
        · subst hii
          rw [hab] at ha'
          exact Bool.false_ne_true ha'
        · have hle' : m.addr_pins i' ≤ 15 := he' ▸ hle
          exact hdist.addr_addr i' hi' i hi hii hle' hle he'
  · -- CS1 bit
    have hj : m.cs1_pin < 16 := Nat.lt_succ_of_le hcs1
    by_cases hc : c1v = 1
    · rw [decide_eq_true hc]
      exact (create_mangled_address_testBit m a c1v c2v c3v x1v x2v _ hj).mpr
        (Or.inl ⟨hc, rfl⟩)
    · rw [decide_eq_false hc]
      apply Bool.eq_false_iff.mpr
      intro h
      rcases (create_mangled_address_testBit m a c1v c2v c3v x1v x2v _ hj).mp h with
        ⟨hcc, _⟩ | ⟨_, he⟩ | ⟨_, he⟩ | ⟨_, he⟩ | ⟨_, he⟩ | ⟨i', hi', _, he'⟩
      · exact hc hcc
      · have : m.cs2_pin ≤ 15 := he ▸ hcs1
        exact hdist.cs1_cs2 this he.symm
      · have : m.cs3_pin ≤ 15 := he ▸ hcs1
        exact hdist.cs1_cs3 this he.symm
      · exact hdist.cs1_x1 he.symm
      · exact hdist.cs1_x2 he.symm
      · have hle' : m.addr_pins i' ≤ 15 := he' ▸ hcs1
        exact hdist.addr_cs1 i' hi' hle' he'
  · -- CS2 bit (when configured inside the port)
    intro hcs2
    have hj : m.cs2_pin < 16 := Nat.lt_succ_of_le hcs2
    by_cases hc : c2v = 1
    · rw [decide_eq_true hc]
      exact (create_mangled_address_testBit m a c1v c2v c3v x1v x2v _ hj).mpr
        (Or.inr (Or.inl ⟨hc, rfl⟩))
    · rw [decide_eq_false hc]
      apply Bool.eq_false_iff.mpr
      intro h
      rcases (create_mangled_address_testBit m a c1v c2v c3v x1v x2v _ hj).mp h with
        ⟨_, he⟩ | ⟨hcc, _⟩ | ⟨_, he⟩ | ⟨_, he⟩ | ⟨_, he⟩ | ⟨i', hi', _, he'⟩
      · exact hdist.cs1_cs2 hcs2 he
      · exact hc hcc
      · have : m.cs3_pin ≤ 15 := he ▸ hcs2
        exact hdist.cs2_cs3 hcs2 this he.symm
      · exact hdist.cs2_x1 hcs2 he.symm
      · exact hdist.cs2_x2 hcs2 he.symm
      · have hle' : m.addr_pins i' ≤ 15 := he' ▸ hcs2
        exact hdist.addr_cs2 i' hi' hle' he'
  · -- CS3 bit (when configured inside the port)
    intro hcs3
    have hj : m.cs3_pin < 16 := Nat.lt_succ_of_le hcs3
    by_cases hc : c3v = 1
    · rw [decide_eq_true hc]
      exact (create_mangled_address_testBit m a c1v c2v c3v x1v x2v _ hj).mpr
        (Or.inr (Or.inr (Or.inl ⟨hc, rfl⟩)))
    · rw [decide_eq_false hc]
      apply Bool.eq_false_iff.mpr
      intro h
      rcases (create_mangled_address_testBit m a c1v c2v c3v x1v x2v _ hj).mp h with
        ⟨_, he⟩ | ⟨_, he⟩ | ⟨hcc, _⟩ | ⟨_, he⟩ | ⟨_, he⟩ | ⟨i', hi', _, he'⟩
      · exact hdist.cs1_cs3 hcs3 he
      · have : m.cs2_pin ≤ 15 := he ▸ hcs3
        exact hdist.cs2_cs3 this hcs3 he
      · exact hc hcc
      · exact hdist.cs3_x1 hcs3 he.symm
      · exact hdist.cs3_x2 hcs3 he.symm
      · have hle' : m.addr_pins i' ≤ 15 := he' ▸ hcs3
        exact hdist.addr_cs3 i' hi' hle' he'
  · -- X1 bit
    have hj : m.x1_pin < 16 := Nat.lt_succ_of_le hx1
    by_cases hc : x1v = 1
    · rw [decide_eq_true hc]
      exact (create_mangled_address_testBit m a c1v c2v c3v x1v x2v _ hj).mpr
        (Or.inr (Or.inr (Or.inr (Or.inl ⟨hc, rfl⟩))))
    · rw [decide_eq_false hc]
      apply Bool.eq_false_iff.mpr
      intro h
      rcases (create_mangled_address_testBit m a c1v c2v c3v x1v x2v _ hj).mp h with
        ⟨_, he⟩ | ⟨_, he⟩ | ⟨_, he⟩ | ⟨hcc, _⟩ | ⟨_, he⟩ | ⟨i', hi', _, he'⟩
      · exact hdist.cs1_x1 he
      · have : m.cs2_pin ≤ 15 := he ▸ hx1
        exact hdist.cs2_x1 this he
      · have : m.cs3_pin ≤ 15 := he ▸ hx1
        exact hdist.cs3_x1 this he
      · exact hc hcc
      · exact hdist.x1_x2 he.symm
      · have hle' : m.addr_pins i' ≤ 15 := he' ▸ hx1
        exact hdist.addr_x1 i' hi' hle' he'
  · -- X2 bit
    have hj : m.x2_pin < 16 := Nat.lt_succ_of_le hx2
    by_cases hc : x2v = 1
    · rw [decide_eq_true hc]
      exact (create_mangled_address_testBit m a c1v c2v c3v x1v x2v _ hj).mpr
        (Or.inr (Or.inr (Or.inr (Or.inr (Or.inl ⟨hc, rfl⟩)))))
    · rw [decide_eq_false hc]
      apply Bool.eq_false_iff.mpr
      intro h
      rcases (create_mangled_address_testBit m a c1v c2v c3v x1v x2v _ hj).mp h with
        ⟨_, he⟩ | ⟨_, he⟩ | ⟨_, he⟩ | ⟨_, he⟩ | ⟨hcc, _⟩ | ⟨i', hi', _, he'⟩
      · exact hdist.cs1_x2 he
      · have : m.cs2_pin ≤ 15 := he ▸ hx2
        exact hdist.cs2_x2 this he
      · have : m.cs3_pin ≤ 15 := he ▸ hx2
        exact hdist.cs3_x2 this he
      · exact hdist.x1_x2 he
      · exact hc hcc
      · have hle' : m.addr_pins i' ≤ 15 := he' ▸ hx2
        exact hdist.addr_x2 i' hi' hle' he'
  · -- shifted down by 8 when data shares the address port's low byte
    intro hcond
    rw [if_pos hcond] at hm
    subst hm
    refine ⟨?_, ?_, ?_, ?_, ?_, ?_⟩ <;>
      first
        | (intro i hne
           simp only [shift_pins_24, if_pos hne])
        | (intro hne
           simp only [shift_pins_24, if_pos hne])
  · -- unchanged otherwise
    intro hcond
    rw [if_neg hcond] at hm
    subst hm
    exact ⟨fun _ => rfl, rfl, rfl, rfl, rfl, rfl⟩

/-- A concrete 24-pin configuration (2364-style: A0..A12 on pins
8..20, CS1 on 21, X1/X2 on 22/23, data on 0..7 of the same port). -/
def cfg24W : JsonConfig :=
  { pins :=
      { addr := fun i => if i < 13 then 8 + i else 255,
        data := fun i => i,
        cs1 := ⟨21, 21, 21, 21, 21, 21⟩,
        cs2 := ⟨255, 255, 255, 255, 255, 255⟩,
        cs3 := ⟨255, 255, 255, 255, 255, 255⟩,
        ce := ⟨21, 21, 21, 21, 21, 21⟩,
        oe := ⟨255, 255, 255, 255, 255, 255⟩,
        x1 := 22, x2 := 23, x_jumper_pull := 0 },
    ports := { data_port := 0, addr_port := 0 },
    family := "stm32f4",
    pin_count := 24 }

def m0W : AddressMangler :=
  (init_address_mangler cfg24W .t2364).getD ⟨fun _ => 255, 255, 255, 255, 255, 255⟩

def mW : AddressMangler :=
  (create_address_mangler cfg24W .t2364).getD ⟨fun _ => 255, 255, 255, 255, 255, 255⟩

/-- Witness for C1 at the configuration `cfg24W`, logical address
0x1234, CS inputs (1,0,0) and X inputs (0,1). -/
theorem c1_24pin_mangled_index_witness :
    (init_address_mangler cfg24W .t2364 = some m0W)
    ∧ (create_address_mangler cfg24W .t2364 = some mW)
    ∧ cfg24W.pin_count = 24
    ∧ mW.cs1_pin ≤ 15 ∧ mW.x1_pin ≤ 15 ∧ mW.x2_pin ≤ 15
    ∧ PinsDistinct mW
    ∧ ((∀ i, i < MAX_ADDR_LINES → mW.addr_pins i ≤ 15 →
          (create_mangled_address 24 mW 4660 1 0 0 0 1).testBit (mW.addr_pins i)
            = (4660 : Nat).testBit i)
      ∧ (create_mangled_address 24 mW 4660 1 0 0 0 1).testBit mW.cs1_pin
          = decide ((1 : Nat) = 1)
      ∧ (mW.cs2_pin ≤ 15 →
          (create_mangled_address 24 mW 4660 1 0 0 0 1).testBit mW.cs2_pin
            = decide ((0 : Nat) = 1))
      ∧ (mW.cs3_pin ≤ 15 →
          (create_mangled_address 24 mW 4660 1 0 0 0 1).testBit mW.cs3_pin
            = decide ((0 : Nat) = 1))
      ∧ (create_mangled_address 24 mW 4660 1 0 0 0 1).testBit mW.x1_pin
          = decide ((0 : Nat) = 1)
      ∧ (create_mangled_address 24 mW 4660 1 0 0 0 1).testBit mW.x2_pin
          = decide ((1 : Nat) = 1)
      ∧ ((cfg24W.ports.data_port = cfg24W.ports.addr_port ∧ cfg24W.pins.data 0 < 8) →
          (∀ i, m0W.addr_pins i ≠ 255 → mW.addr_pins i = usub8 (m0W.addr_pins i) 8)
          ∧ (m0W.cs1_pin ≠ 255 → mW.cs1_pin = usub8 m0W.cs1_pin 8)
          ∧ (m0W.cs2_pin ≠ 255 → mW.cs2_pin = usub8 m0W.cs2_pin 8)
          ∧ (m0W.cs3_pin ≠ 255 → mW.cs3_pin = usub8 m0W.cs3_pin 8)
          ∧ (m0W.x1_pin ≠ 255 → mW.x1_pin = usub8 m0W.x1_pin 8)
          ∧ (m0W.x2_pin ≠ 255 → mW.x2_pin = usub8 m0W.x2_pin 8))
      ∧ (¬(cfg24W.ports.data_port = cfg24W.ports.addr_port ∧ cfg24W.pins.data 0 < 8) →
          (∀ i, mW.addr_pins i = m0W.addr_pins i)
          ∧ mW.cs1_pin = m0W.cs1_pin ∧ mW.cs2_pin = m0W.cs2_pin
          ∧ mW.cs3_pin = m0W.cs3_pin
          ∧ mW.x1_pin = m0W.x1_pin ∧ mW.x2_pin = m0W.x2_pin)) :=
  ⟨rfl, rfl, rfl, by decide, by decide, by decide,
    pinsDistinct_of mW (by decide) (by decide) (by decide),
    c1_24pin_mangled_index cfg24W .t2364 m0W mW rfl rfl rfl (by decide) (by decide)
      (by decide) (pinsDistinct_of mW (by decide) (by decide) (by decide)) 4660 1 0 0 0 1⟩

/-! ## Minimum-pin fold lemmas (for the 28-pin dense packing) -/

theorem foldl_min_le_acc (pins : Nat → Nat) (n acc : Nat) :
    (List.range n).foldl (fun mn i => if pins i < mn then pins i else mn) acc ≤ acc := by
  induction n with
  | zero => simp
  | succ n ih =>
    rw [List.range_succ, List.foldl_append]
    simp only [List.foldl_cons, List.foldl_nil]
    split
    · exact Nat.le_trans (Nat.le_of_lt (by assumption)) ih
    · exact ih

theorem foldl_min_acc_or_mem (pins : Nat → Nat) (n acc : Nat) :
    (List.range n).foldl (fun mn i => if pins i < mn then pins i else mn) acc = acc
    ∨ ∃ i, i < n ∧ pins i
        = (List.range n).foldl (fun mn i => if pins i < mn then pins i else mn) acc := by
  induction n with
  | zero => simp
  | succ n ih =>
    rw [List.range_succ, List.foldl_append]
    simp only [List.foldl_cons, List.foldl_nil]
    split
    · exact Or.inr ⟨n, Nat.lt_succ_self n, rfl⟩
    · rcases ih with h | ⟨i, hi, h⟩
      · exact Or.inl h
      · exact Or.inr ⟨i, Nat.lt_succ_of_lt hi, h⟩

theorem foldl_min_le_mem (pins : Nat → Nat) (n acc : Nat) :
    ∀ i, i < n →
      (List.range n).foldl (fun mn i => if pins i < mn then pins i else mn) acc ≤ pins i := by
  induction n with
  | zero => exact fun i hi => absurd hi (Nat.not_lt_zero i)
  | succ n ih =>
    intro i hi
    rw [List.range_succ, List.foldl_append]
    simp only [List.foldl_cons, List.foldl_nil]
    rcases Nat.lt_succ_iff_lt_or_eq.mp hi with h' | rfl
    · split
      · exact Nat.le_trans (Nat.le_of_lt (by assumption)) (ih i h')
      · exact ih i h'
    · split
      · exact Nat.le_refl _
      · exact Nat.le_of_not_lt (by assumption)

theorem min_addr_pin_le_255 (pins : Nat → Nat) : min_addr_pin pins ≤ 255 :=
  foldl_min_le_acc pins MAX_ADDR_LINES 255

theorem min_addr_pin_cases (pins : Nat → Nat) :
    min_addr_pin pins = 255 ∨ ∃ i, i < MAX_ADDR_LINES ∧ pins i = min_addr_pin pins :=
  foldl_min_acc_or_mem pins MAX_ADDR_LINES 255

theorem min_addr_pin_le (pins : Nat → Nat) :
    ∀ i, i < MAX_ADDR_LINES → min_addr_pin pins ≤ pins i :=
  foldl_min_le_mem pins MAX_ADDR_LINES 255

/-- C4: For every 28-pin chip configuration the CS and X inputs
contribute nothing to the mangled index, and the minimum configured
address pin is subtracted (`uint8_t` subtraction) from every used
address pin, so that some address line lands on bit 0 (dense packing). -/
theorem c4_28pin_no_cs_dense
    (config : JsonConfig) (rom_type : SdrrRomType) (m0 m : AddressMangler)
    (hinit : init_address_mangler config rom_type = some m0)
    (hcreate : create_address_mangler config rom_type = some m)
    (h28 : config.pin_count = 28)
    (a c1 c2 c3 x1 x2 c1' c2' c3' x1' x2' : Nat) :
    (create_mangled_address 28 m a c1 c2 c3 x1 x2
      = create_mangled_address 28 m a c1' c2' c3' x1' x2')
    ∧ (∀ i, m0.addr_pins i ≠ 255 →
        m.addr_pins i = usub8 (m0.addr_pins i) (min_addr_pin m0.addr_pins))
    ∧ ((∃ i, i < MAX_ADDR_LINES ∧ m0.addr_pins i < 255) →
        ∃ i, i < MAX_ADDR_LINES ∧ m.addr_pins i = 0) := by
  have hm : pack_pins_28 m0 = m := by
    rw [create_address_mangler, hinit] at hcreate
    rw [h28] at hcreate
    simpa using hcreate
  refine ⟨?_, ?_, ?_⟩
  · simp [create_mangled_address]
  · intro i hne
    rw [← hm]
    simp only [pack_pins_28, if_pos hne]
  · rintro ⟨i0, hi0, hlt⟩
    have hminle : min_addr_pin m0.addr_pins ≤ m0.addr_pins i0 :=
      min_addr_pin_le m0.addr_pins i0 hi0
    have hminlt : min_addr_pin m0.addr_pins < 255 := Nat.lt_of_le_of_lt hminle hlt
    rcases min_addr_pin_cases m0.addr_pins with h | ⟨i1, hi1, h⟩
    · omega
    · refine ⟨i1, hi1, ?_⟩
      rw [← hm]
      have hne : m0.addr_pins i1 ≠ 255 := by omega
      simp only [pack_pins_28, if_pos hne]
      rw [h, usub8]
      omega

/-- A concrete 28-pin configuration (27128-style: A0..A13 on pins
2..15, CE on 0, OE on 1, data on a separate port). -/
def cfg28W : JsonConfig :=
  { pins :=
      { addr := fun i => if i < 14 then 2 + i else 255,
        data := fun i => i,
        cs1 := ⟨255, 255, 255, 255, 255, 255⟩,
        cs2 := ⟨255, 255, 255, 255, 255, 255⟩,
        cs3 := ⟨255, 255, 255, 255, 255, 255⟩,
        ce := ⟨0, 0, 0, 0, 0, 0⟩,
        oe := ⟨1, 1, 1, 1, 1, 1⟩,
        x1 := 255, x2 := 255, x_jumper_pull := 0 },
    ports := { data_port := 1, addr_port := 0 },
    family := "stm32f4",
    pin_count := 28 }

def m028W : AddressMangler :=
  (init_address_mangler cfg28W .t27128).getD ⟨fun _ => 255, 255, 255, 255, 255, 255⟩

def m28W : AddressMangler :=
  (create_address_mangler cfg28W .t27128).getD ⟨fun _ => 255, 255, 255, 255, 255, 255⟩

/-- Witness for C4 at the configuration `cfg28W`, address 0x1357,
comparing CS/X inputs (0,255,255,0,0) against (1,0,1,1,1). -/
theorem c4_28pin_no_cs_dense_witness :
    (init_address_mangler cfg28W .t27128 = some m028W)
    ∧ (create_address_mangler cfg28W .t27128 = some m28W)
    ∧ cfg28W.pin_count = 28
    ∧ ((create_mangled_address 28 m28W 4951 0 255 255 0 0
        = create_mangled_address 28 m28W 4951 1 0 1 1 1)
      ∧ (∀ i, m028W.addr_pins i ≠ 255 →
          m28W.addr_pins i = usub8 (m028W.addr_pins i) (min_addr_pin m028W.addr_pins))
      ∧ ((∃ i, i < MAX_ADDR_LINES ∧ m028W.addr_pins i < 255) →
          ∃ i, i < MAX_ADDR_LINES ∧ m28W.addr_pins i = 0)) :=
  ⟨rfl, rfl, rfl,
    c4_28pin_no_cs_dense cfg28W .t27128 m028W m28W rfl rfl rfl 4951 0 255 255 0 0 1 0 1 1 1⟩

/-- C3: For a 2732, and only for a 2732, `init_address_mangler` swaps
the logical→pin assignment of A11 and A12; consequently the mangled
index of a 2732 mangler at address `a` equals the index the unswapped
pin assignment produces at the address `b` whose bits 11 and 12 are
exchanged with those of `a`. -/
theorem c3_2732_a11_a12_swap
    (config : JsonConfig) (m : AddressMangler)
    (hinit : init_address_mangler config .t2732 = some m) :
    (m.addr_pins 11 = config.pins.addr 12 ∧ m.addr_pins 12 = config.pins.addr 11
      ∧ ∀ i, i ≠ 11 → i ≠ 12 → m.addr_pins i = config.pins.addr i)
    ∧ (∀ rt : SdrrRomType, rt ≠ .t2732 → ∀ m', init_address_mangler config rt = some m' →
        ∀ i, m'.addr_pins i = config.pins.addr i)
    ∧ (∀ (mbase : AddressMangler) (a b c1 c2 c3 x1 x2 : Nat),
        (a.testBit 11 = b.testBit 12 ∧ a.testBit 12 = b.testBit 11
          ∧ ∀ i, i < MAX_ADDR_LINES → i ≠ 11 → i ≠ 12 → a.testBit i = b.testBit i) →
        create_mangled_address 24
          { mbase with addr_pins := fun i => if i = 11 then mbase.addr_pins 12
              else if i = 12 then mbase.addr_pins 11 else mbase.addr_pins i }
          a c1 c2 c3 x1 x2
        = create_mangled_address 24 mbase b c1 c2 c3 x1 x2) := by
  refine ⟨?_, ?_, ?_⟩
  · simp only [init_address_mangler, if_true] at hinit
    injection hinit with h
    rw [← h]
    exact ⟨rfl, rfl, fun i h11 h12 => by simp [h11, h12]⟩
  · intro rt hne m' hinit' i
    cases rt <;> simp_all [init_address_mangler] <;> subst hinit' <;> rfl
  · rintro mbase a b c1 c2 c3 x1 x2 ⟨hb11, hb12, hbo⟩
    apply Nat.eq_of_testBit_eq
    intro j
    by_cases hj : j < 16
    · have hL := create_mangled_address_testBit
        { mbase with addr_pins := fun i => if i = 11 then mbase.addr_pins 12
            else if i = 12 then mbase.addr_pins 11 else mbase.addr_pins i }
        a c1 c2 c3 x1 x2 j hj
      have hR := create_mangled_address_testBit mbase b c1 c2 c3 x1 x2 j hj
      have hex : (∃ i, i < MAX_ADDR_LINES ∧ a.testBit i = true ∧
          (fun i => if i = 11 then mbase.addr_pins 12
            else if i = 12 then mbase.addr_pins 11 else mbase.addr_pins i) i = j)
          ↔ (∃ i, i < MAX_ADDR_LINES ∧ b.testBit i = true ∧ mbase.addr_pins i = j) := by
        constructor
        · rintro ⟨i, hi, ha, hpin⟩
          by_cases h11 : i = 11
          · subst h11
            rw [hb11] at ha
            simp at hpin
            exact ⟨12, by decide, ha, hpin⟩
          · by_cases h12 : i = 12
            · subst h12
              rw [hb12] at ha
              simp at hpin
              exact ⟨11, by decide, ha, hpin⟩
            · rw [hbo i hi h11 h12] at ha
              simp [h11, h12] at hpin
              exact ⟨i, hi, ha, hpin⟩
        · rintro ⟨i, hi, hbt, hpin⟩
          by_cases h11 : i = 11
          · subst h11
            rw [← hb12] at hbt
            refine ⟨12, by decide, hbt, ?_⟩
            simpa using hpin
          · by_cases h12 : i = 12
            · subst h12
              rw [← hb11] at hbt
              refine ⟨11, by decide, hbt, ?_⟩
              simpa using hpin
            · rw [← hbo i hi h11 h12] at hbt
              refine ⟨i, hi, hbt, ?_⟩
              simpa [h11, h12] using hpin
      rw [Bool.eq_iff_iff, hL, hR]
      dsimp only at hex ⊢
      rw [hex]
    · have hz : ∀ (mm : AddressMangler) (aa : Nat),
          (create_mangled_address 24 mm aa c1 c2 c3 x1 x2).testBit j = false := by
        intro mm aa
        simp only [create_mangled_address]
        rw [Nat.testBit_mod_two_pow]
        simp [hj]
      rw [hz, hz]

def m2732W : AddressMangler :=
  (init_address_mangler cfg24W .t2732).getD ⟨fun _ => 255, 255, 255, 255, 255, 255⟩

/-- Witness for C3 at the configuration `cfg24W`: the swap relation
holds, and concretely the 2732-swapped mangler at address 0x0800
(bit 11) produces the index of the unswapped mangler at 0x1000 (bit 12). -/
theorem c3_2732_a11_a12_swap_witness :
    (init_address_mangler cfg24W .t2732 = some m2732W)
    ∧ ((m2732W.addr_pins 11 = cfg24W.pins.addr 12
        ∧ m2732W.addr_pins 12 = cfg24W.pins.addr 11
        ∧ ∀ i, i ≠ 11 → i ≠ 12 → m2732W.addr_pins i = cfg24W.pins.addr i)
      ∧ (∀ rt : SdrrRomType, rt ≠ .t2732 →
          ∀ m', init_address_mangler cfg24W rt = some m' →
          ∀ i, m'.addr_pins i = cfg24W.pins.addr i)
      ∧ (∀ (mbase : AddressMangler) (a b c1 c2 c3 x1 x2 : Nat),
          (a.testBit 11 = b.testBit 12 ∧ a.testBit 12 = b.testBit 11
            ∧ ∀ i, i < MAX_ADDR_LINES → i ≠ 11 → i ≠ 12 → a.testBit i = b.testBit i) →
          create_mangled_address 24
            { mbase with addr_pins := fun i => if i = 11 then mbase.addr_pins 12
                else if i = 12 then mbase.addr_pins 11 else mbase.addr_pins i }
            a c1 c2 c3 x1 x2
          = create_mangled_address 24 mbase b c1 c2 c3 x1 x2))
    ∧ create_mangled_address 24
        { m0W with addr_pins := fun i => if i = 11 then m0W.addr_pins 12
            else if i = 12 then m0W.addr_pins 11 else m0W.addr_pins i }
        2048 1 0 0 0 0
      = create_mangled_address 24 m0W 4096 1 0 0 0 0 := by
  refine ⟨rfl, c3_2732_a11_a12_swap cfg24W m2732W rfl, ?_⟩
  exact (c3_2732_a11_a12_swap cfg24W m2732W rfl).2.2 m0W 2048 4096 1 0 0 0 0
    ⟨by decide, by decide, by decide⟩

/-! ## The ROM-set validator's expected bytes (validate_all_rom_sets) -/

/-- `loaded_rom_t`: an original ROM file. -/
structure LoadedRom where
  size : Nat
  data : Nat → Nat

/-- `sdrr_serve_t` as the validator distinguishes it: the
`SERVE_ADDR_ON_ANY_CS` multi-ROM mode versus the bank-switched mode
(the `else` branch). -/
inductive SdrrServe where
  | addrOnAnyCs
  | bankSwitched
  deriving DecidableEq, Repr

/-- `get_num_cs` from test/src/query-roms.c (the 2704/2708 cases hit
the C `assert(0)`-and-return-0 default). -/
def get_num_cs (rom_type : SdrrRomType) : Nat :=
  match rom_type with
  | .t2316 | .t23128 => 3
  | .t2332 | .t23256 | .t23512 | .t2716 | .t2732 | .t2764
  | .t27128 | .t27256 | .t27512 => 2
  | .t2364 | .t231024 => 1
  | .t2704 | .t2708 => 0

/-- `cs_active_level` (validator lines 37-41): 1 for an active-high
CS line, 0 otherwise. -/
def cs_active_level (s : SdrrCsState) : Nat := if s = .activeHigh then 1 else 0

/-- `cs_active` of the single-ROM branch (validator lines 64-75):
each existing CS input must sit at its active level. -/
def cs_active_single (num_cs : Nat) (s1 s2 s3 : SdrrCsState) (c1 c2 c3 : Nat) : Bool :=
  (decide (num_cs < 1) || decide (c1 = cs_active_level s1)) &&
  (decide (num_cs < 2) || decide (c2 = cs_active_level s2)) &&
  (decide (num_cs < 3) || decide (c3 = cs_active_level s3))

/-- Expected byte of the single-ROM branch (validator lines 87-103):
all three C branches yield the original source byte, for activating
and non-activating CS/X combinations alike. -/
def validate_expected_byte_single (rom : LoadedRom) (original_addr : Nat)
    (cs_active : Bool) (x1 x2 : Nat) : Nat :=
  if cs_active ∧ x1 = 0 ∧ x2 = 0 then rom.data original_addr
  else if cs_active then rom.data original_addr
  else rom.data original_addr

/-- The multi-ROM activation pattern (validator lines 181-183): ROM k
answers when its own select line (CS1 / X1 / X2 for k = 0 / 1 / 2) is
at the active level and the two others are at the inactive level. -/
def multi_pattern (rom_idx : Nat) (act inact : Nat) (cs1 x1 x2 : Nat) : Bool :=
  (rom_idx == 0 && cs1 == act && x1 == inact && x2 == inact) ||
  (rom_idx == 1 && x1 == act && cs1 == inact && x2 == inact) ||
  (rom_idx == 2 && x2 == act && cs1 == inact && x1 == inact)

/-- The multi-ROM active-ROM search (validator lines 171-187): first
ROM whose pattern matches; a loaded index past `count` is skipped
(the C `continue`); `cfg_cs1 i = 0` encodes an active-low CS in the
json config. -/
def multi_active_rom (cfg_cs1 : Nat → Nat) (base count rom_count : Nat)
    (cs1 x1 x2 : Nat) : Option Nat :=
  (List.range rom_count).find? (fun rom_idx =>
    decide (base + rom_idx < count) &&
      (let act := if cfg_cs1 (base + rom_idx) = 0 then 0 else 1
       let inact := if act = 0 then 1 else 0
       multi_pattern rom_idx act inact cs1 x1 x2))

/-- The bank-switch X reading (validator lines 190-200): with
`x_jumper_pull = 0` the X pins are pulled high by default and the
raw readings are flipped; otherwise they are used as read. -/
def bank_select (x_jumper_pull : Nat) (x1 x2 : Nat) : Nat × Nat :=
  if x_jumper_pull = 0 then
    (if x1 ≠ 0 then 0 else 1, if x2 ≠ 0 then 0 else 1)
  else (x1, x2)

/-- The bank-switched active ROM (validator lines 202-206):
`bank = (X2 << 1) | X1` after the jumper-pull flip, wrapped modulo
the ROM count. -/
def bank_active_rom (x_jumper_pull rom_count x1 x2 : Nat) : Nat :=
  let sel := bank_select x_jumper_pull x1 x2
  ((sel.2 <<< 1) ||| sel.1) % rom_count

/-- Expected byte of the multi/bank branch (validator lines 160-240):
the active ROM's byte at `addr mod size`, or the fill byte 0xAA when
no ROM is active (or the chosen index is out of the loaded range). -/
def validate_expected_byte_multi (serve : SdrrServe) (x_jumper_pull : Nat)
    (cfg_cs1 : Nat → Nat) (loaded : Nat → LoadedRom)
    (base count rom_count : Nat) (cs1 x1 x2 logical_addr : Nat) : Nat :=
  let active_rom : Option Nat :=
    match serve with
    | .addrOnAnyCs => multi_active_rom cfg_cs1 base count rom_count cs1 x1 x2
    | .bankSwitched => some (bank_active_rom x_jumper_pull rom_count x1 x2)
  match active_rom with
  | some ar =>
      if count ≤ base + ar then 0xAA
      else (loaded (base + ar)).data (logical_addr % (loaded (base + ar)).size)
  | none => 0xAA

/-- The per-set data the validator reads (`rom_set` / first ROM's
descriptor). -/
structure ValidatorSet where
  rom_count : Nat
  serve : SdrrServe
  rom_type : SdrrRomType
  cs1_state : SdrrCsState
  cs2_state : SdrrCsState
  cs3_state : SdrrCsState

/-- Whether a `(cs1,cs2,cs3,x1,x2)` tuple activates some ROM of the
set, as the validator computes it: CS levels for a single-ROM set,
pattern match for a multi set, always for a bank-switched set. -/
def set_activates (s : ValidatorSet) (cfg_cs1 : Nat → Nat)
    (base count : Nat) (c1 c2 c3 x1 x2 : Nat) : Bool :=
  if s.rom_count = 1 then
    cs_active_single (get_num_cs s.rom_type) s.cs1_state s.cs2_state s.cs3_state c1 c2 c3
  else
    match s.serve with
    | .addrOnAnyCs => (multi_active_rom cfg_cs1 base count s.rom_count c1 x1 x2).isSome
    | .bankSwitched => true

/-- The byte the validator expects to read back (demangled) from the
mangled table, over both branches of `validate_all_rom_sets`. -/
def validator_expected_byte (s : ValidatorSet) (x_jumper_pull : Nat)
    (cfg_cs1 : Nat → Nat) (loaded : Nat → LoadedRom)
    (base count : Nat) (c1 c2 c3 x1 x2 addr : Nat) : Nat :=
  if s.rom_count = 1 then
    validate_expected_byte_single (loaded base) addr
      (cs_active_single (get_num_cs s.rom_type) s.cs1_state s.cs2_state s.cs3_state
        c1 c2 c3) x1 x2
  else
    validate_expected_byte_multi s.serve x_jumper_pull cfg_cs1 loaded base count
      s.rom_count c1 x1 x2 addr

theorem validate_expected_byte_single_eq (rom : LoadedRom) (addr : Nat)
    (act : Bool) (x1 x2 : Nat) :
    validate_expected_byte_single rom addr act x1 x2 = rom.data addr := by
  unfold validate_expected_byte_single
  split
  · rfl
  · split <;> rfl

/-- The single-ROM set used to refute C2 as stated: a 2364 with an
active-low CS, whose source bytes are all 0x42. -/
def c2SetSingleW : ValidatorSet :=
  { rom_count := 1, serve := .addrOnAnyCs, rom_type := .t2364,
    cs1_state := .activeLow, cs2_state := .notUsed, cs3_state := .notUsed }

def c2LoadedW : Nat → LoadedRom := fun _ => { size := 8192, data := fun _ => 0x42 }

/-- C2 counterexample: for a single-ROM set the tuple `cs1 = 1` (an
active-low CS held inactive) activates no ROM, yet the validator
expects the source byte 0x42 at the corresponding table index, not
the fill byte 0xAA. -/
theorem c2_counterexample_single_set :
    set_activates c2SetSingleW (fun _ => 0) 0 1 1 255 255 0 0 = false
    ∧ validator_expected_byte c2SetSingleW 0 (fun _ => 0) c2LoadedW 0 1 1 255 255 0 0 0
        = 0x42
    ∧ (0x42 : Nat) ≠ 0xAA := by
  refine ⟨by decide, ?_, by decide⟩
  rfl

/-- C2 amended: in a multi-ROM any-CS set, a tuple that activates no
ROM is expected to demangle to the fill byte 0xAA; a single-ROM set
is instead expected to hold the source byte at every CS/X tuple,
activating or not. -/
theorem c2_inactive_tuples_fill
    (s : ValidatorSet) (jp : Nat) (cfg : Nat → Nat) (loaded : Nat → LoadedRom)
    (base count : Nat) (c1 c2 c3 x1 x2 addr : Nat)
    (hact : set_activates s cfg base count c1 c2 c3 x1 x2 = false) :
    (s.rom_count ≠ 1 → s.serve = .addrOnAnyCs →
      validator_expected_byte s jp cfg loaded base count c1 c2 c3 x1 x2 addr = 0xAA)
    ∧ (s.rom_count = 1 →
      validator_expected_byte s jp cfg loaded base count c1 c2 c3 x1 x2 addr
        = (loaded base).data addr) := by
  constructor
  · intro hmulti hserve
    rw [set_activates, if_neg hmulti, hserve] at hact
    dsimp only at hact
    have hnone : multi_active_rom cfg base count s.rom_count c1 x1 x2 = none :=
      Option.not_isSome_iff_eq_none.mp (by rw [hact]; exact Bool.false_ne_true)
    rw [validator_expected_byte, if_neg hmulti, hserve]
    simp only [validate_expected_byte_multi, hnone]
  · intro hsingle
    rw [validator_expected_byte, if_pos hsingle, validate_expected_byte_single_eq]

/-- The multi-ROM set and tuple for the C2 witness: two active-low
ROMs, all select lines held at 1 (inactive), so no pattern matches. -/
def c2SetMultiW : ValidatorSet :=
  { rom_count := 2, serve := .addrOnAnyCs, rom_type := .t2364,
    cs1_state := .activeLow, cs2_state := .notUsed, cs3_state := .notUsed }

/-- Witness for the amended C2 at a 2-ROM any-CS set with the
non-activating tuple `(cs1,x1,x2) = (1,1,1)`. -/
theorem c2_inactive_tuples_fill_witness :
    (set_activates c2SetMultiW (fun _ => 0) 0 2 1 255 255 1 1 = false)
    ∧ ((c2SetMultiW.rom_count ≠ 1 → c2SetMultiW.serve = .addrOnAnyCs →
        validator_expected_byte c2SetMultiW 0 (fun _ => 0) c2LoadedW 0 2 1 255 255 1 1 5
          = 0xAA)
      ∧ (c2SetMultiW.rom_count = 1 →
        validator_expected_byte c2SetMultiW 0 (fun _ => 0) c2LoadedW 0 2 1 255 255 1 1 5
          = (c2LoadedW 0).data 5)) :=
  ⟨by decide,
    c2_inactive_tuples_fill c2SetMultiW 0 (fun _ => 0) c2LoadedW 0 2 1 255 255 1 1 5
      (by decide)⟩

/-- C5: For a bank-switched set the expected byte comes from ROM
number `((X2 << 1) | X1) mod rom_count`, where the X readings are
inverted exactly when `x_jumper_pull = 0`; and with post-inversion
X readings (1,1) a 3-ROM set selects ROM `3 mod 3 = 0`. -/
theorem c5_bank_switch_selection
    (jp : Nat) (cfg : Nat → Nat) (loaded : Nat → LoadedRom)
    (base count rom_count : Nat) (c1 x1 x2 addr : Nat) :
    (∀ bank, bank = ((((if jp = 0 then (if x2 ≠ 0 then 0 else 1) else x2) <<< 1) |||
          (if jp = 0 then (if x1 ≠ 0 then 0 else 1) else x1)) % rom_count) →
      base + bank < count →
      validate_expected_byte_multi .bankSwitched jp cfg loaded base count rom_count
          c1 x1 x2 addr
        = (loaded (base + bank)).data (addr % (loaded (base + bank)).size))
    ∧ (∀ jp' x1' x2',
        (if jp' = 0 then (if x1' ≠ 0 then 0 else 1) else x1') = 1 →
        (if jp' = 0 then (if x2' ≠ 0 then 0 else 1) else x2') = 1 →
        bank_active_rom jp' 3 x1' x2' = 0) := by
  constructor
  · intro bank hbank hin
    have hb : bank_active_rom jp rom_count x1 x2 = bank := by
      rw [hbank, bank_active_rom, bank_select]
      by_cases hjp : jp = 0
      · rw [if_pos hjp, if_pos hjp, if_pos hjp]
      · rw [if_neg hjp, if_neg hjp, if_neg hjp]
    rw [validate_expected_byte_multi]
    simp only [hb]
    rw [if_neg (Nat.not_le_of_lt hin)]
  · intro jp' x1' x2' h1 h2
    rw [bank_active_rom, bank_select]
    by_cases hjp : jp' = 0
    · rw [if_pos hjp] at h1 h2
      rw [if_pos hjp]
      simp only [h1, h2]
      decide
    · rw [if_neg hjp] at h1 h2
      rw [if_neg hjp]
      simp only [h1, h2]
      decide

def c5LoadedW : Nat → LoadedRom := fun i => { size := 4, data := fun _ => 10 + i }

/-- Witness for C5: jumper pull 1 (no inversion), raw X readings
(1,1), 3 ROMs: bank 3 wraps to ROM 0, whose bytes are 10. -/
theorem c5_bank_switch_selection_witness :
    ((0 : Nat) = ((((if (1 : Nat) = 0 then (if (1 : Nat) ≠ 0 then 0 else 1) else 1) <<< 1) |||
        (if (1 : Nat) = 0 then (if (1 : Nat) ≠ 0 then 0 else 1) else 1)) % 3))
    ∧ (0 : Nat) + 0 < 3
    ∧ validate_expected_byte_multi .bankSwitched 1 (fun _ => 0) c5LoadedW 0 3 3 0 1 1 9
        = (c5LoadedW (0 + 0)).data (9 % (c5LoadedW (0 + 0)).size)
    ∧ bank_active_rom 1 3 1 1 = 0 :=
  ⟨by decide, by decide,
    (c5_bank_switch_selection 1 (fun _ => 0) c5LoadedW 0 3 3 0 1 1 9).1 0 (by decide)
      (by decide),
    (c5_bank_switch_selection 1 (fun _ => 0) c5LoadedW 0 3 3 0 1 1 9).2 1 1 1
      (by decide) (by decide)⟩

/-! ## Metadata header detection (metadata_present, main.c) -/

/-- The 16 bytes the C string literal `"ONEROM_METADATA"` provides:
the 15 ASCII characters followed by the terminating NUL. -/
def onerom_magic : Nat → Nat := fun i =>
  [79, 78, 69, 82, 79, 77, 95, 77, 69, 84, 65, 68, 65, 84, 65, 0].getD i 0

/-- The fields of `onerom_metadata_header_t` that `metadata_present`
reads; `magic` is the byte at each of the first 16 offsets. -/
structure OneromMetadataHeader where
  magic : Nat → Nat
  version : Nat
  rom_set_count : Nat

/-- `metadata_present` from the startup code: scan the 16 magic
bytes, then accept only schema version 1. -/
def metadata_present (h : OneromMetadataHeader) : Nat :=
  let present := (List.range 16).all (fun ii => h.magic ii == onerom_magic ii)
  if present then (if h.version = 1 then 1 else 0) else 0

/-- C6: the metadata header is treated as present (return value 1)
exactly when its first 16 bytes equal the null-terminated ASCII magic
`"ONEROM_METADATA"` and its version byte equals 1; any other magic or
version yields 0. -/
theorem c6_metadata_present_iff (h : OneromMetadataHeader) :
    (metadata_present h = 1
      ↔ ((∀ ii, ii < 16 → h.magic ii = onerom_magic ii) ∧ h.version = 1))
    ∧ (metadata_present h = 0
      ↔ ¬((∀ ii, ii < 16 → h.magic ii = onerom_magic ii) ∧ h.version = 1)) := by
  have hall : ((List.range 16).all (fun ii => h.magic ii == onerom_magic ii) = true)
      ↔ ∀ ii, ii < 16 → h.magic ii = onerom_magic ii := by
    simp [List.all_eq_true, List.mem_range]
  by_cases hp : ∀ ii, ii < 16 → h.magic ii = onerom_magic ii
  · by_cases hv : h.version = 1
    · have h1 : metadata_present h = 1 := by
        simp only [metadata_present]
        rw [if_pos (hall.mpr hp), if_pos hv]
      rw [h1]
      exact ⟨⟨fun _ => ⟨hp, hv⟩, fun _ => rfl⟩,
        ⟨fun h10 => absurd h10 (by omega), fun hn => absurd ⟨hp, hv⟩ hn⟩⟩
    · have h0 : metadata_present h = 0 := by
        simp only [metadata_present]
        rw [if_pos (hall.mpr hp), if_neg hv]
      rw [h0]
      exact ⟨⟨fun h01 => absurd h01 (by omega), fun hc => absurd hc.2 hv⟩,
        ⟨fun _ => fun hc => hv hc.2, fun _ => rfl⟩⟩
  · have h0 : metadata_present h = 0 := by
      simp only [metadata_present]
      rw [if_neg (fun hc => hp (hall.mp hc))]
    rw [h0]
    exact ⟨⟨fun h01 => absurd h01 (by omega), fun hc => absurd hc.1 hp⟩,
      ⟨fun _ => fun hc => hp hc.1, fun _ => rfl⟩⟩

/-- A header carrying the correct magic and version 1. -/
def hdrGoodW : OneromMetadataHeader :=
  { magic := onerom_magic, version := 1, rom_set_count := 3 }

/-- A header with the correct magic but an unsupported version. -/
def hdrBadW : OneromMetadataHeader :=
  { magic := onerom_magic, version := 2, rom_set_count := 3 }

/-- Witness for C6: a well-formed header is detected (1); a version-2
header is rejected (0). -/
theorem c6_metadata_present_iff_witness :
    metadata_present hdrGoodW = 1 ∧ metadata_present hdrBadW = 0 :=
  ⟨(c6_metadata_present_iff hdrGoodW).1.mpr ⟨by decide, rfl⟩,
    (c6_metadata_present_iff hdrBadW).2.mpr (by decide)⟩

/-! ## Firmware overrides (process_firmware_overrides, main.c) -/

/-- The two MCU builds the startup code is compiled for. -/
inductive McuBuild where
  | stm32f4
  | rp235x
  deriving DecidableEq, Repr

/-- The fields of `onerom_firmware_overrides_t` the startup code
reads (`override_present[0]` and `override_value[0]` are the first
bytes of the bitmap arrays). -/
structure OneromFirmwareOverrides where
  override_present : Nat
  override_value : Nat
  ice_freq : Nat
  fire_freq : Nat
  fire_vreg : Nat

/-- The fields of `sdrr_runtime_info_t` that the override processing
can touch. -/
structure SdrrRuntimeInfo where
  ice_freq : Nat
  fire_freq : Nat
  fire_vreg : Nat
  overclock_enabled : Nat
  status_led_enabled : Nat
  swd_enabled : Nat
  fire_pio_mode : Nat

/-- The fields of `sdrr_rom_set_t` that `process_firmware_overrides`
reads; the overrides pointer is kept as a raw address so the NULL
and 0xFFFFFFFF sentinels stay observable, with `heap` resolving it. -/
structure SdrrRomSetInfo where
  extra_info : Nat
  firmware_overrides_ptr : Nat

/-- Guarded update for the ICE frequency (present bit 0, STM32F4
builds only). -/
def ovr_ice_freq_step (build : McuBuild) (o : OneromFirmwareOverrides)
    (ri : SdrrRuntimeInfo) : SdrrRuntimeInfo :=
  if build = .stm32f4 ∧ o.override_present.testBit 0 then
    { ri with ice_freq := o.ice_freq } else ri

/-- Guarded update for the ICE overclock flag (present bit 1, value
bit 0, STM32F4 builds only). -/
def ovr_ice_overclock_step (build : McuBuild) (o : OneromFirmwareOverrides)
    (ri : SdrrRuntimeInfo) : SdrrRuntimeInfo :=
  if build = .stm32f4 ∧ o.override_present.testBit 1 then
    { ri with overclock_enabled := if o.override_value.testBit 0 then 1 else 0 } else ri

/-- Guarded update for the Fire frequency (present bit 2, RP235X
builds only). -/
def ovr_fire_freq_step (build : McuBuild) (o : OneromFirmwareOverrides)
    (ri : SdrrRuntimeInfo) : SdrrRuntimeInfo :=
  if build = .rp235x ∧ o.override_present.testBit 2 then
    { ri with fire_freq := o.fire_freq } else ri

/-- Guarded update for the Fire overclock flag (present bit 3, value
bit 1, RP235X builds only). -/
def ovr_fire_overclock_step (build : McuBuild) (o : OneromFirmwareOverrides)
    (ri : SdrrRuntimeInfo) : SdrrRuntimeInfo :=
  if build = .rp235x ∧ o.override_present.testBit 3 then
    { ri with overclock_enabled := if o.override_value.testBit 1 then 1 else 0 } else ri

/-- Guarded update for the Fire VREG code (present bit 4, RP235X
builds only). -/
def ovr_fire_vreg_step (build : McuBuild) (o : OneromFirmwareOverrides)
    (ri : SdrrRuntimeInfo) : SdrrRuntimeInfo :=
  if build = .rp235x ∧ o.override_present.testBit 4 then
    { ri with fire_vreg := o.fire_vreg } else ri

/-- Guarded update for the status LED (present bit 5, value bit 2,
both builds). -/
def ovr_led_step (o : OneromFirmwareOverrides) (ri : SdrrRuntimeInfo) :
    SdrrRuntimeInfo :=
  if o.override_present.testBit 5 then
    { ri with status_led_enabled := if o.override_value.testBit 2 then 1 else 0 } else ri

/-- Guarded update for SWD (present bit 6, value bit 3, both builds). -/
def ovr_swd_step (o : OneromFirmwareOverrides) (ri : SdrrRuntimeInfo) :
    SdrrRuntimeInfo :=
  if o.override_present.testBit 6 then
    { ri with swd_enabled := if o.override_value.testBit 3 then 1 else 0 } else ri

/-- Guarded update for the Fire PIO serve mode (present bit 7, value
bit 4, RP235X builds only). -/
def ovr_fire_pio_step (build : McuBuild) (o : OneromFirmwareOverrides)
    (ri : SdrrRuntimeInfo) : SdrrRuntimeInfo :=
  if build = .rp235x ∧ o.override_present.testBit 7 then
    { ri with fire_pio_mode := if o.override_value.testBit 4 then 1 else 0 } else ri

/-- The body of `process_firmware_overrides` once the overrides
record is in hand: the C sequence of guarded field updates, with the
`STM32F4` / `RP235X` conditional compilation expressed by `build`. -/
def apply_firmware_overrides (build : McuBuild) (o : OneromFirmwareOverrides)
    (ri : SdrrRuntimeInfo) : SdrrRuntimeInfo :=
  ovr_fire_pio_step build o (ovr_swd_step o (ovr_led_step o
    (ovr_fire_vreg_step build o (ovr_fire_overclock_step build o
      (ovr_fire_freq_step build o (ovr_ice_overclock_step build o
        (ovr_ice_freq_step build o ri)))))))

theorem ovr_ice_freq_step_fields (build : McuBuild) (o : OneromFirmwareOverrides)
    (ri : SdrrRuntimeInfo) :
    ((ovr_ice_freq_step build o ri).ice_freq
      = if build = .stm32f4 ∧ o.override_present.testBit 0 then o.ice_freq
        else ri.ice_freq)
    ∧ (ovr_ice_freq_step build o ri).fire_freq = ri.fire_freq
    ∧ (ovr_ice_freq_step build o ri).fire_vreg = ri.fire_vreg
    ∧ (ovr_ice_freq_step build o ri).overclock_enabled = ri.overclock_enabled
    ∧ (ovr_ice_freq_step build o ri).status_led_enabled = ri.status_led_enabled
    ∧ (ovr_ice_freq_step build o ri).swd_enabled = ri.swd_enabled
    ∧ (ovr_ice_freq_step build o ri).fire_pio_mode = ri.fire_pio_mode := by
  rw [ovr_ice_freq_step]
  split_ifs <;> exact ⟨rfl, rfl, rfl, rfl, rfl, rfl, rfl⟩

theorem ovr_ice_overclock_step_fields (build : McuBuild)
    (o : OneromFirmwareOverrides) (ri : SdrrRuntimeInfo) :
    (ovr_ice_overclock_step build o ri).ice_freq = ri.ice_freq
    ∧ (ovr_ice_overclock_step build o ri).fire_freq = ri.fire_freq
    ∧ (ovr_ice_overclock_step build o ri).fire_vreg = ri.fire_vreg
    ∧ ((ovr_ice_overclock_step build o ri).overclock_enabled
      = if build = .stm32f4 ∧ o.override_present.testBit 1 then
          (if o.override_value.testBit 0 then 1 else 0)
        else ri.overclock_enabled)
    ∧ (ovr_ice_overclock_step build o ri).status_led_enabled = ri.status_led_enabled
    ∧ (ovr_ice_overclock_step build o ri).swd_enabled = ri.swd_enabled
    ∧ (ovr_ice_overclock_step build o ri).fire_pio_mode = ri.fire_pio_mode := by
  rw [ovr_ice_overclock_step]
  split_ifs <;> exact ⟨rfl, rfl, rfl, rfl, rfl, rfl, rfl⟩

theorem ovr_fire_freq_step_fields (build : McuBuild) (o : OneromFirmwareOverrides)
    (ri : SdrrRuntimeInfo) :
    (ovr_fire_freq_step build o ri).ice_freq = ri.ice_freq
    ∧ ((ovr_fire_freq_step build o ri).fire_freq
      = if build = .rp235x ∧ o.override_present.testBit 2 then o.fire_freq
        else ri.fire_freq)
    ∧ (ovr_fire_freq_step build o ri).fire_vreg = ri.fire_vreg
    ∧ (ovr_fire_freq_step build o ri).overclock_enabled = ri.overclock_enabled
    ∧ (ovr_fire_freq_step build o ri).status_led_enabled = ri.status_led_enabled
    ∧ (ovr_fire_freq_step build o ri).swd_enabled = ri.swd_enabled
    ∧ (ovr_fire_freq_step build o ri).fire_pio_mode = ri.fire_pio_mode := by
  rw [ovr_fire_freq_step]
  split_ifs <;> exact ⟨rfl, rfl, rfl, rfl, rfl, rfl, rfl⟩

theorem ovr_fire_overclock_step_fields (build : McuBuild)
    (o : OneromFirmwareOverrides) (ri : SdrrRuntimeInfo) :
    (ovr_fire_overclock_step build o ri).ice_freq = ri.ice_freq
    ∧ (ovr_fire_overclock_step build o ri).fire_freq = ri.fire_freq
    ∧ (ovr_fire_overclock_step build o ri).fire_vreg = ri.fire_vreg
    ∧ ((ovr_fire_overclock_step build o ri).overclock_enabled
      = if build = .rp235x ∧ o.override_present.testBit 3 then
          (if o.override_value.testBit 1 then 1 else 0)
        else ri.overclock_enabled)
    ∧ (ovr_fire_overclock_step build o ri).status_led_enabled = ri.status_led_enabled
    ∧ (ovr_fire_overclock_step build o ri).swd_enabled = ri.swd_enabled
    ∧ (ovr_fire_overclock_step build o ri).fire_pio_mode = ri.fire_pio_mode := by
  rw [ovr_fire_overclock_step]
  split_ifs <;> exact ⟨rfl, rfl, rfl, rfl, rfl, rfl, rfl⟩

theorem ovr_fire_vreg_step_fields (build : McuBuild) (o : OneromFirmwareOverrides)
    (ri : SdrrRuntimeInfo) :
    (ovr_fire_vreg_step build o ri).ice_freq = ri.ice_freq
    ∧ (ovr_fire_vreg_step build o ri).fire_freq = ri.fire_freq
    ∧ ((ovr_fire_vreg_step build o ri).fire_vreg
      = if build = .rp235x ∧ o.override_present.testBit 4 then o.fire_vreg
        else ri.fire_vreg)
    ∧ (ovr_fire_vreg_step build o ri).overclock_enabled = ri.overclock_enabled
    ∧ (ovr_fire_vreg_step build o ri).status_led_enabled = ri.status_led_enabled
    ∧ (ovr_fire_vreg_step build o ri).swd_enabled = ri.swd_enabled
    ∧ (ovr_fire_vreg_step build o ri).fire_pio_mode = ri.fire_pio_mode := by
  rw [ovr_fire_vreg_step]
  split_ifs <;> exact ⟨rfl, rfl, rfl, rfl, rfl, rfl, rfl⟩

theorem ovr_led_step_fields (o : OneromFirmwareOverrides) (ri : SdrrRuntimeInfo) :
    (ovr_led_step o ri).ice_freq = ri.ice_freq
    ∧ (ovr_led_step o ri).fire_freq = ri.fire_freq
    ∧ (ovr_led_step o ri).fire_vreg = ri.fire_vreg
    ∧ (ovr_led_step o ri).overclock_enabled = ri.overclock_enabled
    ∧ ((ovr_led_step o ri).status_led_enabled
      = if o.override_present.testBit 5 then
          (if o.override_value.testBit 2 then 1 else 0)
        else ri.status_led_enabled)
    ∧ (ovr_led_step o ri).swd_enabled = ri.swd_enabled
    ∧ (ovr_led_step o ri).fire_pio_mode = ri.fire_pio_mode := by
  rw [ovr_led_step]
  split_ifs <;> exact ⟨rfl, rfl, rfl, rfl, rfl, rfl, rfl⟩

theorem ovr_swd_step_fields (o : OneromFirmwareOverrides) (ri : SdrrRuntimeInfo) :
    (ovr_swd_step o ri).ice_freq = ri.ice_freq
    ∧ (ovr_swd_step o ri).fire_freq = ri.fire_freq
    ∧ (ovr_swd_step o ri).fire_vreg = ri.fire_vreg
    ∧ (ovr_swd_step o ri).overclock_enabled = ri.overclock_enabled
    ∧ (ovr_swd_step o ri).status_led_enabled = ri.status_led_enabled
    ∧ ((ovr_swd_step o ri).swd_enabled
      = if o.override_present.testBit 6 then
          (if o.override_value.testBit 3 then 1 else 0)
        else ri.swd_enabled)
    ∧ (ovr_swd_step o ri).fire_pio_mode = ri.fire_pio_mode := by
  rw [ovr_swd_step]
  split_ifs <;> exact ⟨rfl, rfl, rfl, rfl, rfl, rfl, rfl⟩

theorem ovr_fire_pio_step_fields (build : McuBuild) (o : OneromFirmwareOverrides)
    (ri : SdrrRuntimeInfo) :
    (ovr_fire_pio_step build o ri).ice_freq = ri.ice_freq
    ∧ (ovr_fire_pio_step build o ri).fire_freq = ri.fire_freq
    ∧ (ovr_fire_pio_step build o ri).fire_vreg = ri.fire_vreg
    ∧ (ovr_fire_pio_step build o ri).overclock_enabled = ri.overclock_enabled
    ∧ (ovr_fire_pio_step build o ri).status_led_enabled = ri.status_led_enabled
    ∧ (ovr_fire_pio_step build o ri).swd_enabled = ri.swd_enabled
    ∧ ((ovr_fire_pio_step build o ri).fire_pio_mode
      = if build = .rp235x ∧ o.override_present.testBit 7 then
          (if o.override_value.testBit 4 then 1 else 0)
        else ri.fire_pio_mode) := by
  rw [ovr_fire_pio_step]
  split_ifs <;> exact ⟨rfl, rfl, rfl, rfl, rfl, rfl, rfl⟩

/-- `process_firmware_overrides` from the startup code: apply the
selected ROM set's overrides only when `extra_info == 1` and the
overrides pointer is neither NULL nor the 0xFFFFFFFF sentinel. -/
def process_firmware_overrides (build : McuBuild)
    (heap : Nat → OneromFirmwareOverrides) (ri : SdrrRuntimeInfo)
    (set : SdrrRomSetInfo) : SdrrRuntimeInfo :=
  if set.extra_info = 1 then
    if set.firmware_overrides_ptr ≠ 0 ∧ set.firmware_overrides_ptr ≠ 0xFFFFFFFF then
      apply_firmware_overrides build (heap set.firmware_overrides_ptr) ri
    else ri
  else ri

/-- Per-field characterization of `apply_firmware_overrides`
(the last write wins for `overclock_enabled`). -/
theorem apply_firmware_overrides_fields (build : McuBuild)
    (o : OneromFirmwareOverrides) (ri : SdrrRuntimeInfo) :
    ((apply_firmware_overrides build o ri).ice_freq
      = if build = .stm32f4 ∧ o.override_present.testBit 0 then o.ice_freq
        else ri.ice_freq)
    ∧ ((apply_firmware_overrides build o ri).fire_freq
      = if build = .rp235x ∧ o.override_present.testBit 2 then o.fire_freq
        else ri.fire_freq)
    ∧ ((apply_firmware_overrides build o ri).fire_vreg
      = if build = .rp235x ∧ o.override_present.testBit 4 then o.fire_vreg
        else ri.fire_vreg)
    ∧ ((apply_firmware_overrides build o ri).overclock_enabled
      = if build = .rp235x ∧ o.override_present.testBit 3 then
          (if o.override_value.testBit 1 then 1 else 0)
        else if build = .stm32f4 ∧ o.override_present.testBit 1 then
          (if o.override_value.testBit 0 then 1 else 0)
        else ri.overclock_enabled)
    ∧ ((apply_firmware_overrides build o ri).status_led_enabled
      = if o.override_present.testBit 5 then (if o.override_value.testBit 2 then 1 else 0)
        else ri.status_led_enabled)
    ∧ ((apply_firmware_overrides build o ri).swd_enabled
      = if o.override_present.testBit 6 then (if o.override_value.testBit 3 then 1 else 0)
        else ri.swd_enabled)
    ∧ ((apply_firmware_overrides build o ri).fire_pio_mode
      = if build = .rp235x ∧ o.override_present.testBit 7 then
          (if o.override_value.testBit 4 then 1 else 0)
        else ri.fire_pio_mode) := by
  refine ⟨?_, ?_, ?_, ?_, ?_, ?_, ?_⟩ <;>
    simp only [apply_firmware_overrides, ovr_fire_pio_step_fields,
      ovr_swd_step_fields, ovr_led_step_fields, ovr_fire_vreg_step_fields,
      ovr_fire_overclock_step_fields, ovr_fire_freq_step_fields,
      ovr_ice_overclock_step_fields, ovr_ice_freq_step_fields]

/-- C10: `process_firmware_overrides` is a frame-preserving update:
a runtime-info field changes only when the overrides record is
reachable (`extra_info = 1` and a non-sentinel pointer) and the
field's own present bit (for the running build) is set; every other
field keeps its previous value. -/
theorem c10_overrides_frame (build : McuBuild)
    (heap : Nat → OneromFirmwareOverrides) (ri : SdrrRuntimeInfo)
    (set : SdrrRomSetInfo) :
    ((set.extra_info ≠ 1 ∨ set.firmware_overrides_ptr = 0
        ∨ set.firmware_overrides_ptr = 0xFFFFFFFF) →
      process_firmware_overrides build heap ri set = ri)
    ∧ (¬(build = .stm32f4
          ∧ (heap set.firmware_overrides_ptr).override_present.testBit 0) →
        (process_firmware_overrides build heap ri set).ice_freq = ri.ice_freq)
    ∧ (¬(build = .rp235x
          ∧ (heap set.firmware_overrides_ptr).override_present.testBit 2) →
        (process_firmware_overrides build heap ri set).fire_freq = ri.fire_freq)
    ∧ (¬(build = .rp235x
          ∧ (heap set.firmware_overrides_ptr).override_present.testBit 4) →
        (process_firmware_overrides build heap ri set).fire_vreg = ri.fire_vreg)
    ∧ (¬((build = .stm32f4
            ∧ (heap set.firmware_overrides_ptr).override_present.testBit 1)
          ∨ (build = .rp235x
            ∧ (heap set.firmware_overrides_ptr).override_present.testBit 3)) →
        (process_firmware_overrides build heap ri set).overclock_enabled
          = ri.overclock_enabled)
    ∧ (¬(heap set.firmware_overrides_ptr).override_present.testBit 5 →
        (process_firmware_overrides build heap ri set).status_led_enabled
          = ri.status_led_enabled)
    ∧ (¬(heap set.firmware_overrides_ptr).override_present.testBit 6 →
        (process_firmware_overrides build heap ri set).swd_enabled = ri.swd_enabled)
    ∧ (¬(build = .rp235x
          ∧ (heap set.firmware_overrides_ptr).override_present.testBit 7) →
        (process_firmware_overrides build heap ri set).fire_pio_mode
          = ri.fire_pio_mode) := by
  have hfields := apply_firmware_overrides_fields build
    (heap set.firmware_overrides_ptr) ri
  refine ⟨?_, ?_, ?_, ?_, ?_, ?_, ?_, ?_⟩
  · intro h
    rw [process_firmware_overrides]
    split_ifs with h1 h2
    · rcases h with h | h | h
      · exact absurd h1 h
      · exact absurd h h2.1
      · exact absurd h h2.2
    · rfl
    · rfl
  · intro h
    rw [process_firmware_overrides]
    split_ifs
    · rw [hfields.1, if_neg h]
    · rfl
    · rfl
  · intro h
    rw [process_firmware_overrides]
    split_ifs
    · rw [hfields.2.1, if_neg h]
    · rfl
    · rfl
  · intro h
    rw [process_firmware_overrides]
    split_ifs
    · rw [hfields.2.2.1, if_neg h]
    · rfl
    · rfl
  · intro h
    rw [process_firmware_overrides]
    split_ifs
    · rw [hfields.2.2.2.1, if_neg (fun hc => h (Or.inr hc)),
        if_neg (fun hc => h (Or.inl hc))]
    · rfl
    · rfl
  · intro h
    rw [process_firmware_overrides]
    split_ifs
    · rw [hfields.2.2.2.2.1, if_neg h]
    · rfl
    · rfl
  · intro h
    rw [process_firmware_overrides]
    split_ifs
    · rw [hfields.2.2.2.2.2.1, if_neg h]
    · rfl
    · rfl
  · intro h
    rw [process_firmware_overrides]
    split_ifs
    · rw [hfields.2.2.2.2.2.2, if_neg h]
    · rfl
    · rfl

def c10HeapW : Nat → OneromFirmwareOverrides :=
  fun _ => { override_present := 4, override_value := 0,
             ice_freq := 0, fire_freq := 250, fire_vreg := 0 }

def c10RiW : SdrrRuntimeInfo :=
  { ice_freq := 100, fire_freq := 150, fire_vreg := 0xFF,
    overclock_enabled := 0, status_led_enabled := 1, swd_enabled := 1,
    fire_pio_mode := 0 }

def c10SetW : SdrrRomSetInfo := { extra_info := 1, firmware_overrides_ptr := 0x100 }

def c10SetNoExtraW : SdrrRomSetInfo := { extra_info := 0, firmware_overrides_ptr := 0x100 }

/-- Witness for C10 on an rp235x build with only present bit 2 set:
the set without extra info changes nothing, and every field whose
present bit is clear keeps its value. -/
theorem c10_overrides_frame_witness :
    (process_firmware_overrides .rp235x c10HeapW c10RiW c10SetNoExtraW = c10RiW)
    ∧ (process_firmware_overrides .rp235x c10HeapW c10RiW c10SetW).ice_freq
        = c10RiW.ice_freq
    ∧ (process_firmware_overrides .rp235x c10HeapW c10RiW c10SetW).fire_vreg
        = c10RiW.fire_vreg
    ∧ (process_firmware_overrides .rp235x c10HeapW c10RiW c10SetW).overclock_enabled
        = c10RiW.overclock_enabled
    ∧ (process_firmware_overrides .rp235x c10HeapW c10RiW c10SetW).status_led_enabled
        = c10RiW.status_led_enabled
    ∧ (process_firmware_overrides .rp235x c10HeapW c10RiW c10SetW).swd_enabled
        = c10RiW.swd_enabled
    ∧ (process_firmware_overrides .rp235x c10HeapW c10RiW c10SetW).fire_pio_mode
        = c10RiW.fire_pio_mode :=
  ⟨(c10_overrides_frame .rp235x c10HeapW c10RiW c10SetNoExtraW).1 (Or.inl (by decide)),
    (c10_overrides_frame .rp235x c10HeapW c10RiW c10SetW).2.1 (by decide),
    (c10_overrides_frame .rp235x c10HeapW c10RiW c10SetW).2.2.2.1 (by decide),
    (c10_overrides_frame .rp235x c10HeapW c10RiW c10SetW).2.2.2.2.1 (by decide),
    (c10_overrides_frame .rp235x c10HeapW c10RiW c10SetW).2.2.2.2.2.1 (by decide),
    (c10_overrides_frame .rp235x c10HeapW c10RiW c10SetW).2.2.2.2.2.2.1 (by decide),
    (c10_overrides_frame .rp235x c10HeapW c10RiW c10SetW).2.2.2.2.2.2.2 (by decide)⟩

/-! ## Firmware-override composition (C7) -/

/-- The `fire_vreg_t` voltage table from sdrr/include/enums.h: the
5-bit ordinal for each supported RP2350 VREG voltage string. -/
def fire_vreg_code (s : String) : Option Nat :=
  match s with
  | "0.55V" => some 0x00
  | "0.60V" => some 0x01
  | "0.65V" => some 0x02
  | "0.70V" => some 0x03
  | "0.75V" => some 0x04
  | "0.80V" => some 0x05
  | "0.85V" => some 0x06
  | "0.90V" => some 0x07
  | "0.95V" => some 0x08
  | "1.00V" => some 0x09
  | "1.05V" => some 0x0A
  | "1.10V" => some 0x0B
  | "1.15V" => some 0x0C
  | "1.20V" => some 0x0D
  | "1.25V" => some 0x0E
  | "1.30V" => some 0x0F
  | "1.35V" => some 0x10
  | "1.40V" => some 0x11
  | "1.50V" => some 0x12
  | "1.60V" => some 0x13
  | "1.65V" => some 0x14
  | "1.70V" => some 0x15
  | "1.80V" => some 0x16
  | "1.90V" => some 0x17
  | "2.00V" => some 0x18
  | "2.35V" => some 0x19
  | "2.50V" => some 0x1A
  | "2.65V" => some 0x1B
  | "2.80V" => some 0x1C
  | "3.00V" => some 0x1D
  | "3.15V" => some 0x1E
  | "3.30V" => some 0x1F
  | _ => none

/-- Modelled from the spec: the `firmware_overrides` object of the
declarative config (§6), with each recognized option optional. The
host-side composer that serializes it lives in the Rust tooling,
which is not among these sources. -/
structure FirmwareOverridesConfig where
  ice_cpu_freq : Option Nat
  ice_overclock : Option Bool
  fire_cpu_freq : Option Nat
  fire_overclock : Option Bool
  fire_vreg : Option String
  led_enabled : Option Bool
  swd_enabled : Option Bool
  fire_serve_pio : Option Bool

/-- Modelled from the spec: the missing host-side serializer of
`firmware_overrides` (§4.6 item 5, §6, §8 scenario 5).  Each present
option sets its `override_present` bit — the bit numbering matching
the consumer `process_firmware_overrides` — boolean options store
their value in `override_value`, frequencies are stored verbatim,
and the VREG string is encoded through the enums.h voltage table. -/
def compose_firmware_overrides (c : FirmwareOverridesConfig) :
    OneromFirmwareOverrides :=
  { override_present :=
      (if c.ice_cpu_freq.isSome then 1 <<< 0 else 0) |||
      (if c.ice_overclock.isSome then 1 <<< 1 else 0) |||
      (if c.fire_cpu_freq.isSome then 1 <<< 2 else 0) |||
      (if c.fire_overclock.isSome then 1 <<< 3 else 0) |||
      (if (c.fire_vreg.bind fire_vreg_code).isSome then 1 <<< 4 else 0) |||
      (if c.led_enabled.isSome then 1 <<< 5 else 0) |||
      (if c.swd_enabled.isSome then 1 <<< 6 else 0) |||
      (if c.fire_serve_pio.isSome then 1 <<< 7 else 0),
    override_value :=
      (if c.ice_overclock.getD false then 1 <<< 0 else 0) |||
      (if c.fire_overclock.getD false then 1 <<< 1 else 0) |||
      (if c.led_enabled.getD false then 1 <<< 2 else 0) |||
      (if c.swd_enabled.getD false then 1 <<< 3 else 0) |||
      (if c.fire_serve_pio.getD false then 1 <<< 4 else 0),
    ice_freq := c.ice_cpu_freq.getD 0,
    fire_freq := c.fire_cpu_freq.getD 0,
    fire_vreg := (c.fire_vreg.bind fire_vreg_code).getD 0xFF }

/-- The scenario-5 config: `fire.cpu_freq = 300`,
`fire.overclock = true`, `fire.vreg = "1.20V"`. -/
def c7CfgW : FirmwareOverridesConfig :=
  { ice_cpu_freq := none, ice_overclock := none,
    fire_cpu_freq := some 300, fire_overclock := some true,
    fire_vreg := some "1.20V",
    led_enabled := none, swd_enabled := none, fire_serve_pio := none }

/-- C7: composing the Fire-300MHz-overclock-1.20V overrides yields
`override_present = 0x1C` (exactly bits {2,3,4}), `fire_freq = 300`
and `fire_vreg = 0x0D`; and on an RP235X build the firmware applies
the Fire frequency when present bit 2 is set, the Fire overclock
flag (from `override_value` bit 1) when bit 3 is set, and the Fire
VREG code when bit 4 is set — so these overrides set the runtime
fields to 300 / 1 / 0x0D. -/
theorem c7_fire_300_overrides :
    (compose_firmware_overrides c7CfgW).override_present = 0x1C
    ∧ (compose_firmware_overrides c7CfgW).override_present.testBit 2 = true
    ∧ (compose_firmware_overrides c7CfgW).override_present.testBit 3 = true
    ∧ (compose_firmware_overrides c7CfgW).override_present.testBit 4 = true
    ∧ (compose_firmware_overrides c7CfgW).fire_freq = 300
    ∧ (compose_firmware_overrides c7CfgW).fire_vreg = 0x0D
    ∧ (∀ (o : OneromFirmwareOverrides) (ri : SdrrRuntimeInfo),
        (o.override_present.testBit 2 = true →
          (apply_firmware_overrides .rp235x o ri).fire_freq = o.fire_freq)
        ∧ (o.override_present.testBit 3 = true →
          (apply_firmware_overrides .rp235x o ri).overclock_enabled
            = (if o.override_value.testBit 1 then 1 else 0))
        ∧ (o.override_present.testBit 4 = true →
          (apply_firmware_overrides .rp235x o ri).fire_vreg = o.fire_vreg))
    ∧ (∀ ri : SdrrRuntimeInfo,
        apply_firmware_overrides .rp235x (compose_firmware_overrides c7CfgW) ri
          = { ri with fire_freq := 300, overclock_enabled := 1, fire_vreg := 0x0D }) := by
  refine ⟨by decide, by decide, by decide, by decide, rfl, rfl, ?_, ?_⟩
  · intro o ri
    have hfields := apply_firmware_overrides_fields .rp235x o ri
    refine ⟨?_, ?_, ?_⟩
    · intro hb
      rw [hfields.2.1, if_pos ⟨rfl, hb⟩]
    · intro hb
      rw [hfields.2.2.2.1, if_pos ⟨rfl, hb⟩]
    · intro hb
      rw [hfields.2.2.1, if_pos ⟨rfl, hb⟩]
  · intro ri
    rfl

/-- Witness for C7's applied-override clauses at the composed
scenario-5 record. -/
theorem c7_fire_300_overrides_witness :
    ((compose_firmware_overrides c7CfgW).override_present.testBit 2 = true
      ∧ (compose_firmware_overrides c7CfgW).override_present.testBit 3 = true
      ∧ (compose_firmware_overrides c7CfgW).override_present.testBit 4 = true)
    ∧ (apply_firmware_overrides .rp235x (compose_firmware_overrides c7CfgW)
        c10RiW).fire_freq = (compose_firmware_overrides c7CfgW).fire_freq
    ∧ (apply_firmware_overrides .rp235x (compose_firmware_overrides c7CfgW)
        c10RiW).overclock_enabled
      = (if (compose_firmware_overrides c7CfgW).override_value.testBit 1 then 1 else 0)
    ∧ (apply_firmware_overrides .rp235x (compose_firmware_overrides c7CfgW)
        c10RiW).fire_vreg = (compose_firmware_overrides c7CfgW).fire_vreg :=
  ⟨⟨by decide, by decide, by decide⟩,
    ((c7_fire_300_overrides.2.2.2.2.2.2.1 (compose_firmware_overrides c7CfgW)
      c10RiW).1 (by decide)),
    ((c7_fire_300_overrides.2.2.2.2.2.2.1 (compose_firmware_overrides c7CfgW)
      c10RiW).2.1 (by decide)),
    ((c7_fire_300_overrides.2.2.2.2.2.2.1 (compose_firmware_overrides c7CfgW)
      c10RiW).2.2 (by decide))⟩

/-! ## PIO serve-config framing (piorom) -/

/-- The `piorom_config_t` fields the serve-config override can set. -/
structure PioromConfig where
  addr_read_irq : Nat
  addr_read_delay : Nat
  cs_active_delay : Nat
  cs_inactive_delay : Nat
  no_dma : Nat

/-- The serve-config override check inside `piorom`: the 8-byte
vector `sc` is accepted only when byte 0 is 0xFE, each of bytes 1..5
differs from 0xFF, byte 6 is 0xFE and byte 7 is 0xFF; on acceptance
bytes 1..5 are copied into the PIO configuration, otherwise the
firmware enters limp mode (`none` here). -/
def piorom_apply_serve_config (cfg : PioromConfig) (sc : Nat → Nat) :
    Option PioromConfig :=
  if sc 0 = 0xFE ∧ sc 1 ≠ 0xFF ∧ sc 2 ≠ 0xFF ∧ sc 3 ≠ 0xFF ∧ sc 4 ≠ 0xFF
      ∧ sc 5 ≠ 0xFF ∧ sc 6 = 0xFE ∧ sc 7 = 0xFF then
    some { cfg with
      addr_read_irq := sc 1
      addr_read_delay := sc 2
      cs_active_delay := sc 3
      cs_inactive_delay := sc 4
      no_dma := sc 5 }
  else none

def c8CfgW : PioromConfig :=
  { addr_read_irq := 4, addr_read_delay := 0, cs_active_delay := 0,
    cs_inactive_delay := 0, no_dma := 0 }

/-- A vector satisfying the claim's framing (bytes 0/6/7 correct) but
with byte 1 equal to 0xFF. -/
def c8ScBadW : Nat → Nat := fun i => [0xFE, 0xFF, 0, 0, 0, 0, 0xFE, 0xFF].getD i 0

/-- C8 counterexample: a vector whose bytes 0, 6 and 7 carry the
claimed framing signature is nonetheless refused, because its byte 1
is 0xFF. -/
theorem c8_counterexample_inner_byte :
    c8ScBadW 0 = 0xFE ∧ c8ScBadW 6 = 0xFE ∧ c8ScBadW 7 = 0xFF
    ∧ piorom_apply_serve_config c8CfgW c8ScBadW = none := by
  refine ⟨rfl, rfl, rfl, ?_⟩
  rw [piorom_apply_serve_config, if_neg]
  intro h
  exact h.2.1 rfl

/-- C8 amended: an 8-byte serve-config vector is accepted exactly
when byte 0 equals 0xFE, byte 6 equals 0xFE, byte 7 equals 0xFF and
each of the inner bytes 1..5 differs from 0xFF; on acceptance the
inner bytes are carried verbatim into the PIO serve parameters. -/
theorem c8_serve_config_framing (cfg : PioromConfig) (sc : Nat → Nat) :
    ((piorom_apply_serve_config cfg sc).isSome = true
      ↔ (sc 0 = 0xFE ∧ sc 1 ≠ 0xFF ∧ sc 2 ≠ 0xFF ∧ sc 3 ≠ 0xFF ∧ sc 4 ≠ 0xFF
          ∧ sc 5 ≠ 0xFF ∧ sc 6 = 0xFE ∧ sc 7 = 0xFF))
    ∧ (∀ cfg', piorom_apply_serve_config cfg sc = some cfg' →
        cfg'.addr_read_irq = sc 1 ∧ cfg'.addr_read_delay = sc 2
        ∧ cfg'.cs_active_delay = sc 3 ∧ cfg'.cs_inactive_delay = sc 4
        ∧ cfg'.no_dma = sc 5) := by
  constructor
  · rw [piorom_apply_serve_config]
    split_ifs with hc
    · exact ⟨fun _ => hc, fun _ => rfl⟩
    · exact ⟨fun h => absurd h (by simp), fun h => absurd h hc⟩
  · intro cfg' h
    rw [piorom_apply_serve_config] at h
    split_ifs at h
    injection h with h
    rw [← h]
    exact ⟨rfl, rfl, rfl, rfl, rfl⟩

/-- A well-framed vector: signature bytes plus inner bytes 1..5. -/
def c8ScGoodW : Nat → Nat := fun i => [0xFE, 4, 2, 3, 5, 1, 0xFE, 0xFF].getD i 0

/-- Witness for the amended C8: the well-framed vector is accepted
and its inner bytes land in the PIO configuration. -/
theorem c8_serve_config_framing_witness :
    ((piorom_apply_serve_config c8CfgW c8ScGoodW).isSome = true)
    ∧ (∀ cfg', piorom_apply_serve_config c8CfgW c8ScGoodW = some cfg' →
        cfg'.addr_read_irq = c8ScGoodW 1 ∧ cfg'.addr_read_delay = c8ScGoodW 2
        ∧ cfg'.cs_active_delay = c8ScGoodW 3 ∧ cfg'.cs_inactive_delay = c8ScGoodW 4
        ∧ cfg'.no_dma = c8ScGoodW 5) :=
  ⟨(c8_serve_config_framing c8CfgW c8ScGoodW).1.mpr (by decide),
    (c8_serve_config_framing c8CfgW c8ScGoodW).2⟩

/-! ## Image-select pins (setup_sel_pins / get_sel_value, rp235x.c,
and check_sel_pins, main.c) -/

/-- The pin-map fields the SEL-pin code reads: the SEL pin array and
the per-pin jumper-pull bitmask. -/
structure SdrrPins where
  sel : Nat → Nat
  sel_jumper_pull : Nat

/-- The `setup_sel_pins` loop up to `n` iterations, accumulating
`(num, sel_mask, flip_bits)`.  A pin at or beyond `MAX_USED_GPIOS`
is skipped (the C `continue`); a valid pin joins `sel_mask`, and
joins `flip_bits` exactly when its `sel_jumper_pull` bit is clear
(MCU pulls up, so a closed jumper reads low and must be flipped).
The SWD pad isolation is a hardware side effect and is not part of
the returned values. -/
def setup_sel_fold (pins : SdrrPins) (n : Nat) : Nat × Nat × Nat :=
  (List.range n).foldl
    (fun acc ii =>
      if pins.sel ii < MAX_USED_GPIOS then
        (acc.1 + 1, acc.2.1 ||| (1 <<< pins.sel ii),
         if pins.sel_jumper_pull.testBit ii then acc.2.2
         else acc.2.2 ||| (1 <<< pins.sel ii))
      else acc)
    (0, 0, 0)

/-- `setup_sel_pins` from rp235x.c: run the loop over all
`MAX_IMG_SEL_PINS` slots. -/
def setup_sel_pins (pins : SdrrPins) : Nat × Nat × Nat :=
  setup_sel_fold pins MAX_IMG_SEL_PINS

/-- `get_sel_value` from rp235x.c: OR together 15 samples of the
GPIO input xor-ed with the flip bits, then mask to the SEL pins.
The GPIO input is modelled as one stable value, as nothing varies it
in this embedding. -/
def get_sel_value (gpio_in : Nat) (sel_mask flip_bits : Nat) : Nat :=
  ((List.range 15).foldl (fun acc _ => acc ||| (gpio_in ^^^ flip_bits)) 0) &&& sel_mask

/-- The SEL-value packing loop of `check_sel_pins` up to `n`
iterations, accumulating `(sel_value, sel_mask_out)`: bit `ii` of the
result reflects GPIO bit `sel[ii]` for every valid SEL pin. -/
def check_sel_fold (pins : SdrrPins) (gpio_value : Nat) (n : Nat) : Nat × Nat :=
  (List.range n).foldl
    (fun acc ii =>
      if pins.sel ii < MAX_USED_GPIOS then
        (if gpio_value.testBit (pins.sel ii) then acc.1 ||| (1 <<< ii) else acc.1,
         acc.2 ||| (1 <<< ii))
      else acc)
    (0, 0)

/-- `check_sel_pins` from the startup code: set up the pins, return
`(0, 0)` when no SEL pin exists, otherwise read the masked/flipped
GPIO value (a `uint32_t` there, hence `% 2 ^ 32`) and pack SEL pin
`ii` into bit `ii` of the returned value and mask. -/
def check_sel_pins (pins : SdrrPins) (gpio_in : Nat) : Nat × Nat :=
  let setup := setup_sel_pins pins
  if setup.1 = 0 then (0, 0)
  else
    check_sel_fold pins (get_sel_value gpio_in setup.2.1 setup.2.2 % 2 ^ 32)
      MAX_IMG_SEL_PINS

theorem setup_sel_fold_succ (pins : SdrrPins) (n : Nat) :
    setup_sel_fold pins (n + 1)
      = if pins.sel n < MAX_USED_GPIOS then
          ((setup_sel_fold pins n).1 + 1,
           (setup_sel_fold pins n).2.1 ||| (1 <<< pins.sel n),
           if pins.sel_jumper_pull.testBit n then (setup_sel_fold pins n).2.2
           else (setup_sel_fold pins n).2.2 ||| (1 <<< pins.sel n))
        else setup_sel_fold pins n := by
  simp only [setup_sel_fold]
  rw [List.range_succ, List.foldl_append]
  rfl

theorem setup_sel_fold_num_pos (pins : SdrrPins) (n : Nat) :
    (∃ ii, ii < n ∧ pins.sel ii < MAX_USED_GPIOS) → 0 < (setup_sel_fold pins n).1 := by
  induction n with
  | zero => rintro ⟨ii, hii, _⟩; exact absurd hii (Nat.not_lt_zero ii)
  | succ n ih =>
    rintro ⟨ii, hii, hv⟩
    rw [setup_sel_fold_succ]
    by_cases hn : pins.sel n < MAX_USED_GPIOS
    · rw [if_pos hn]
      exact Nat.succ_pos _
    · rw [if_neg hn]
      rcases Nat.lt_succ_iff_lt_or_eq.mp hii with h | rfl
      · exact ih ⟨ii, h, hv⟩
      · exact absurd hv hn

theorem setup_sel_fold_mask_testBit (pins : SdrrPins) (n p : Nat) :
    ((setup_sel_fold pins n).2.1.testBit p = true)
    ↔ ∃ ii, ii < n ∧ pins.sel ii < MAX_USED_GPIOS ∧ pins.sel ii = p := by
  induction n with
  | zero =>
    simp [setup_sel_fold]
  | succ n ih =>
    rw [setup_sel_fold_succ]
    by_cases hn : pins.sel n < MAX_USED_GPIOS
    · rw [if_pos hn]
      simp only [Nat.testBit_or, Bool.or_eq_true, ih, testBit_one_shiftLeft,
        decide_eq_true_eq]
      constructor
      · rintro (⟨ii, hii, h1, h2⟩ | h)
        · exact ⟨ii, Nat.lt_succ_of_lt hii, h1, h2⟩
        · exact ⟨n, Nat.lt_succ_self n, hn, h⟩
      · rintro ⟨ii, hii, h1, h2⟩
        rcases Nat.lt_succ_iff_lt_or_eq.mp hii with h' | rfl
        · exact Or.inl ⟨ii, h', h1, h2⟩
        · exact Or.inr h2
    · rw [if_neg hn, ih]
      constructor
      · rintro ⟨ii, hii, h1, h2⟩
        exact ⟨ii, Nat.lt_succ_of_lt hii, h1, h2⟩
      · rintro ⟨ii, hii, h1, h2⟩
        rcases Nat.lt_succ_iff_lt_or_eq.mp hii with h' | rfl
        · exact ⟨ii, h', h1, h2⟩
        · exact absurd h1 hn

theorem setup_sel_fold_flip_testBit (pins : SdrrPins) (n p : Nat) :
    ((setup_sel_fold pins n).2.2.testBit p = true)
    ↔ ∃ ii, ii < n ∧ pins.sel ii < MAX_USED_GPIOS
        ∧ pins.sel_jumper_pull.testBit ii = false ∧ pins.sel ii = p := by
  induction n with
  | zero =>
    simp [setup_sel_fold]
  | succ n ih =>
    rw [setup_sel_fold_succ]
    by_cases hn : pins.sel n < MAX_USED_GPIOS
    · rw [if_pos hn]
      by_cases hj : pins.sel_jumper_pull.testBit n
      · rw [if_pos hj]
        dsimp only
        rw [ih]
        constructor
        · rintro ⟨ii, hii, h1, h2, h3⟩
          exact ⟨ii, Nat.lt_succ_of_lt hii, h1, h2, h3⟩
        · rintro ⟨ii, hii, h1, h2, h3⟩
          rcases Nat.lt_succ_iff_lt_or_eq.mp hii with h' | rfl
          · exact ⟨ii, h', h1, h2, h3⟩
          · rw [hj] at h2
            exact Bool.noConfusion h2
      · rw [if_neg hj]
        dsimp only
        simp only [Nat.testBit_or, Bool.or_eq_true, ih, testBit_one_shiftLeft,
          decide_eq_true_eq]
        constructor
        · rintro (⟨ii, hii, h1, h2, h3⟩ | h)
          · exact ⟨ii, Nat.lt_succ_of_lt hii, h1, h2, h3⟩
          · exact ⟨n, Nat.lt_succ_self n, hn, Bool.not_eq_true _ ▸ hj, h⟩
        · rintro ⟨ii, hii, h1, h2, h3⟩
          rcases Nat.lt_succ_iff_lt_or_eq.mp hii with h' | rfl
          · exact Or.inl ⟨ii, h', h1, h2, h3⟩
          · exact Or.inr h3
    · rw [if_neg hn, ih]
      constructor
      · rintro ⟨ii, hii, h1, h2, h3⟩
        exact ⟨ii, Nat.lt_succ_of_lt hii, h1, h2, h3⟩
      · rintro ⟨ii, hii, h1, h2, h3⟩
        rcases Nat.lt_succ_iff_lt_or_eq.mp hii with h' | rfl
        · exact ⟨ii, h', h1, h2, h3⟩
        · exact absurd h1 hn

/-- The 15 OR-ed samples of a stable input collapse to one sample. -/
theorem get_sel_value_eq (g m f : Nat) : get_sel_value g m f = (g ^^^ f) &&& m := by
  have h : ∀ k, k ≠ 0 →
      (List.range k).foldl (fun acc _ => acc ||| (g ^^^ f)) 0 = g ^^^ f := by
    intro k
    induction k with
    | zero => intro h; exact absurd rfl h
    | succ k ih =>
      intro _
      rw [List.range_succ, List.foldl_append]
      simp only [List.foldl_cons, List.foldl_nil]
      by_cases hk : k = 0
      · subst hk
        simp
      · rw [ih hk, Nat.or_self]
  rw [get_sel_value, h 15 (by decide)]

theorem check_sel_fold_succ (pins : SdrrPins) (gv n : Nat) :
    check_sel_fold pins gv (n + 1)
      = if pins.sel n < MAX_USED_GPIOS then
          (if gv.testBit (pins.sel n) then (check_sel_fold pins gv n).1 ||| (1 <<< n)
           else (check_sel_fold pins gv n).1,
           (check_sel_fold pins gv n).2 ||| (1 <<< n))
        else check_sel_fold pins gv n := by
  simp only [check_sel_fold]
  rw [List.range_succ, List.foldl_append]
  rfl

theorem check_sel_fold_value_testBit (pins : SdrrPins) (gv n i : Nat) :
    ((check_sel_fold pins gv n).1.testBit i = true)
    ↔ (i < n ∧ pins.sel i < MAX_USED_GPIOS ∧ gv.testBit (pins.sel i) = true) := by
  induction n with
  | zero =>
    simp [check_sel_fold]
  | succ n ih =>
    rw [check_sel_fold_succ]
    by_cases hn : pins.sel n < MAX_USED_GPIOS
    · rw [if_pos hn]
      by_cases hg : gv.testBit (pins.sel n) = true
      · rw [if_pos hg]
        dsimp only
        simp only [Nat.testBit_or, Bool.or_eq_true, ih, testBit_one_shiftLeft,
          decide_eq_true_eq]
        constructor
        · rintro (⟨h1, h2, h3⟩ | rfl)
          · exact ⟨Nat.lt_succ_of_lt h1, h2, h3⟩
          · exact ⟨Nat.lt_succ_self n, hn, hg⟩
        · rintro ⟨h1, h2, h3⟩
          rcases Nat.lt_succ_iff_lt_or_eq.mp h1 with h' | rfl
          · exact Or.inl ⟨h', h2, h3⟩
          · exact Or.inr rfl
      · rw [if_neg hg]
        dsimp only
        rw [ih]
        constructor
        · rintro ⟨h1, h2, h3⟩
          exact ⟨Nat.lt_succ_of_lt h1, h2, h3⟩
        · rintro ⟨h1, h2, h3⟩
          rcases Nat.lt_succ_iff_lt_or_eq.mp h1 with h' | rfl
          · exact ⟨h', h2, h3⟩
          · exact absurd h3 hg
    · rw [if_neg hn, ih]
      constructor
      · rintro ⟨h1, h2, h3⟩
        exact ⟨Nat.lt_succ_of_lt h1, h2, h3⟩
      · rintro ⟨h1, h2, h3⟩
        rcases Nat.lt_succ_iff_lt_or_eq.mp h1 with h' | rfl
        · exact ⟨h', h2, h3⟩
        · exact absurd h2 hn

/-- C9: bit `i` of the packed SEL value reflects the raw GPIO reading
of SEL pin `i`, inverted exactly when bit `i` of `sel_jumper_pull` is
0 and unchanged when it is 1, so a closed jumper always contributes
logical 1. -/
theorem c9_sel_jumper_polarity
    (pins : SdrrPins) (gpio_in : Nat) (i : Nat)
    (hi : i < MAX_IMG_SEL_PINS)
    (hpin : pins.sel i < MAX_USED_GPIOS)
    (hdist : ∀ j, j < MAX_IMG_SEL_PINS → j ≠ i → pins.sel j < MAX_USED_GPIOS →
      pins.sel j ≠ pins.sel i) :
    (check_sel_pins pins gpio_in).1.testBit i
      = (if pins.sel_jumper_pull.testBit i then gpio_in.testBit (pins.sel i)
         else !gpio_in.testBit (pins.sel i)) := by
  have hnum : (setup_sel_pins pins).1 ≠ 0 :=
    Nat.pos_iff_ne_zero.mp (setup_sel_fold_num_pos pins MAX_IMG_SEL_PINS ⟨i, hi, hpin⟩)
  rw [check_sel_pins]
  simp only [if_neg hnum]
  have hp32 : pins.sel i < 32 := Nat.lt_trans hpin (by decide)
  have hmask : (setup_sel_pins pins).2.1.testBit (pins.sel i) = true :=
    (setup_sel_fold_mask_testBit pins MAX_IMG_SEL_PINS (pins.sel i)).mpr
      ⟨i, hi, hpin, rfl⟩
  have hflip : (setup_sel_pins pins).2.2.testBit (pins.sel i)
      = !pins.sel_jumper_pull.testBit i := by
    by_cases hj : pins.sel_jumper_pull.testBit i
    · rw [hj]
      apply Bool.eq_false_iff.mpr
      intro hc
      rcases (setup_sel_fold_flip_testBit pins MAX_IMG_SEL_PINS (pins.sel i)).mp hc
        with ⟨jj, hjj, hv, hjp, hpe⟩
      by_cases hji : jj = i
      · subst hji
        rw [hj] at hjp
        exact Bool.noConfusion hjp
      · exact hdist jj hjj hji hv hpe
    · rw [Bool.not_eq_true] at hj
      rw [hj]
      exact (setup_sel_fold_flip_testBit pins MAX_IMG_SEL_PINS (pins.sel i)).mpr
        ⟨i, hi, hpin, hj, rfl⟩
  have hgv : ((get_sel_value gpio_in (setup_sel_pins pins).2.1
      (setup_sel_pins pins).2.2 % 2 ^ 32).testBit (pins.sel i))
      = (if pins.sel_jumper_pull.testBit i then gpio_in.testBit (pins.sel i)
         else !gpio_in.testBit (pins.sel i)) := by
    rw [Nat.testBit_mod_two_pow, decide_eq_true hp32, Bool.true_and,
      get_sel_value_eq, Nat.testBit_and, Nat.testBit_xor, hmask, Bool.and_true, hflip]
    by_cases hj : pins.sel_jumper_pull.testBit i
    · rw [hj]
      cases gpio_in.testBit (pins.sel i) <;> rfl
    · rw [Bool.not_eq_true] at hj
      rw [hj]
      cases gpio_in.testBit (pins.sel i) <;> rfl
  rw [Bool.eq_iff_iff, check_sel_fold_value_testBit]
  constructor
  · rintro ⟨_, _, h3⟩
    rw [hgv] at h3
    exact h3
  · intro h
    refine ⟨hi, hpin, ?_⟩
    rw [hgv]
    exact h

/-- A concrete pin map for the C9 witness: SEL0..SEL2 on GPIOs 2, 3
and 4, jumper-pull mask 0b101 (SEL1's reading is inverted). -/
def c9PinsW : SdrrPins :=
  { sel := fun i => if i < 3 then 2 + i else 255, sel_jumper_pull := 5 }

/-- Witness for C9 at `c9PinsW` with raw GPIO reading 0b00100
(GPIO 2 high): SEL0 reads its raw bit unchanged. -/
theorem c9_sel_jumper_polarity_witness :
    0 < MAX_IMG_SEL_PINS
    ∧ c9PinsW.sel 0 < MAX_USED_GPIOS
    ∧ (check_sel_pins c9PinsW 4 ).1.testBit 0
      = (if c9PinsW.sel_jumper_pull.testBit 0 then (4 : Nat).testBit (c9PinsW.sel 0)
         else !(4 : Nat).testBit (c9PinsW.sel 0)) :=
  ⟨by decide, by decide,
    c9_sel_jumper_polarity c9PinsW 4 0 (by decide) (by decide)
      (by
        intro j hj hne hv
        have hj7 : j < 7 := hj
        interval_cases j <;> simp_all [c9PinsW])⟩

end OneRom
